import Mathlib

/-!
Shallow embedding of the fastlog structured-logging facility (src/fastlog.py)
and proofs about its specification claims.

Machine integers do not occur: Python integers are unbounded, so `Nat`/`Int`
are exact models.  Wall-clock instants are modelled as `Nat` seconds since the
epoch and every `datetime.now()` read is an explicit parameter.  The external
`datetime.strftime` collaborator is a function parameter `strftime`; a concrete
executable instance is provided for witnesses.
-/

set_option maxHeartbeats 1000000

/-- `class LogLevel(Enum)` of fastlog.py: the five severity members in source
order. -/
inductive LogLevel where
  | DEBUG
  | INFO
  | WARNING
  | ERROR
  | CRITICAL
deriving DecidableEq, Repr

/-- The `.value` string of each `LogLevel` member (identical to the member
name in the source). -/
def LogLevel.value : LogLevel → String
  | .DEBUG => "DEBUG"
  | .INFO => "INFO"
  | .WARNING => "WARNING"
  | .ERROR => "ERROR"
  | .CRITICAL => "CRITICAL"

/-- `Logger.LEVEL_MAP`: the stdlib `logging` numeric level of each member. -/
def levelMap : LogLevel → Nat
  | .DEBUG => 10
  | .INFO => 20
  | .WARNING => 30
  | .ERROR => 40
  | .CRITICAL => 50

/-- `LogLevel[name]` (Python enum lookup by member name), as used in
`Logger._emit_log`; `none` models the `KeyError` for an unknown name. -/
def levelOfName (s : String) : Option LogLevel :=
  if s = "DEBUG" then some .DEBUG
  else if s = "INFO" then some .INFO
  else if s = "WARNING" then some .WARNING
  else if s = "ERROR" then some .ERROR
  else if s = "CRITICAL" then some .CRITICAL
  else none

/-- `class LogFormat(Enum)`. -/
inductive LogFormat where
  | PLAIN
  | JSON
deriving DecidableEq, Repr

/-- `class HandlerType(Enum)` has exactly the members `CONSOLE` and `FILE`;
constructor `OTHER` models any non-member object passed dynamically (Python
does not enforce the annotation), which `Logger._create_handler` rejects in
its `else` branch.  The `String` argument is the object's textual form used
in the error message. -/
inductive HandlerType where
  | CONSOLE
  | FILE
  | OTHER (reprStr : String)
deriving DecidableEq, Repr

/-- `class HandlerConfig`, with the keyword defaults of its `__init__`.
`filename` is an `Option String` path (Python `Optional[Path]`). -/
structure HandlerConfig where
  handler_type : HandlerType := .CONSOLE
  level : LogLevel := .INFO
  format : LogFormat := .PLAIN
  filename : Option String := none
  rotate_size : Option Nat := none
  rotate_count : Nat := 5
  rotate_when : Option String := none
  timestamp_format : String := "%Y-%m-%d %H:%M:%S"
deriving DecidableEq, Repr

/-- The runtime handler object selected by `Logger._create_handler`:
`logging.StreamHandler`, `logging.FileHandler`, `RotatingFileHandler` or
`TimedRotatingFileHandler`, with their constructor arguments. -/
inductive HandlerKind where
  | stream
  | fileH (path : String)
  | rotatingFile (path : String) (maxBytes : Nat) (backupCount : Nat)
  | timedRotatingFile (path : String) (whenSpec : String) (backupCount : Nat)
deriving DecidableEq, Repr

/-- A configured handler as produced by `Logger._create_handler`: the kind,
the numeric level set by `setLevel`, and the formatter choice
(`JSONFormatter` or `PlainFormatter`) with its timestamp pattern. -/
structure Handler where
  kind : HandlerKind
  level : Nat
  fmt : LogFormat
  tsfmt : String
deriving DecidableEq, Repr

/-- Python truthiness of `Optional[int]`: `None` and `0` are falsy. -/
def truthyOptNat : Option Nat → Bool
  | none => false
  | some n => n ≠ 0

/-- Python truthiness of `Optional[str]`: `None` and `""` are falsy. -/
def truthyOptStr : Option String → Bool
  | none => false
  | some s => s ≠ ""

/-- `Logger._create_handler`.  The `mkdir` side effect on the filename's
parent directory is an external file-system primitive and carries no
information for these claims.  `.error` models the raised `ValueError`. -/
def createHandler (cfg : HandlerConfig) : Except String Handler :=
  match cfg.handler_type with
  | .CONSOLE =>
      .ok { kind := .stream, level := levelMap cfg.level, fmt := cfg.format,
            tsfmt := cfg.timestamp_format }
  | .FILE =>
      match cfg.filename with
      | none => .error "File handler requires a filename."
      | some path =>
          let kind :=
            if truthyOptNat cfg.rotate_size then
              HandlerKind.rotatingFile path (cfg.rotate_size.getD 0) cfg.rotate_count
            else if truthyOptStr cfg.rotate_when then
              HandlerKind.timedRotatingFile path (cfg.rotate_when.getD "") cfg.rotate_count
            else
              HandlerKind.fileH path
          .ok { kind := kind, level := levelMap cfg.level, fmt := cfg.format,
                tsfmt := cfg.timestamp_format }
  | .OTHER r => .error ("Unsupported handler type: " ++ r)

/-- The state of the single process-wide logger
`logging.getLogger("AdvancedLogger")`: its attached handler list and numeric
level.  Every `Logger` facade instance aliases this one object. -/
structure GlobalState where
  handlers : List Handler
  level : Nat
deriving DecidableEq, Repr

/-- The handler-construction loop of `Logger.__init__`: handlers are created
and attached one at a time, so a `ValueError` raised for a later config
leaves the earlier handlers attached.  Returns the attached handlers and the
error, if any. -/
def initHandlers : List HandlerConfig → List Handler → List Handler × Option String
  | [], acc => (acc, none)
  | c :: rest, acc =>
      match createHandler c with
      | .ok h => initHandlers rest (acc ++ [h])
      | .error e => (acc, some e)

/-- `Logger.__init__` acting on the process-wide logger: `setLevel(DEBUG)`,
`handlers.clear()`, then attach a handler per config.  The second component
is the propagated `ValueError`, if any (the facade instance exists only when
it is `none`). -/
def loggerInit (handlerCfgs : List HandlerConfig) (_g : GlobalState) :
    GlobalState × Option String :=
  let r := initHandlers handlerCfgs []
  ({ handlers := r.1, level := 10 }, r.2)

/-- `LoggerConfig.__init__`: `handlers or [HandlerConfig()]` — an empty
handler list is falsy and replaced by one default config. -/
def loggerConfigHandlers (handlers : List HandlerConfig) : List HandlerConfig :=
  if handlers = [] then [{}] else handlers

/-- The decimal digit characters. -/
def digitChar10 (n : Nat) : Char :=
  match n with
  | 0 => '0' | 1 => '1' | 2 => '2' | 3 => '3' | 4 => '4'
  | 5 => '5' | 6 => '6' | 7 => '7' | 8 => '8' | _ => '9'

/-- Digit-recursion worker: the fuel (any bound above the value) makes the
recursion structural, so terms reduce definitionally. -/
def natDigitsAux : Nat → Nat → List Char
  | 0, _ => []
  | fuel + 1, n =>
      if n < 10 then [digitChar10 n]
      else natDigitsAux fuel (n / 10) ++ [digitChar10 (n % 10)]

/-- Decimal digits of a natural number, most significant first (the text
Python `str`/`repr` produce for a nonnegative int). -/
def natDigits (n : Nat) : List Char := natDigitsAux (n + 1) n

/-- Python `str` of a nonnegative int. -/
def decStrNat (n : Nat) : String := String.mk (natDigits n)

/-- Python `str`/`repr` of an int (also the JSON rendering of an int). -/
def intChars (n : Int) : List Char :=
  if n < 0 then '-' :: natDigits n.natAbs else natDigits n.toNat

/-- Scalar context values, per the spec data model (`context: ordered mapping
of string to arbitrary scalar/printable value`): Python `str`, `int`, `bool`
and `None`. -/
inductive PyVal where
  | vstr (s : String)
  | vint (n : Int)
  | vbool (b : Bool)
  | vnone
deriving DecidableEq, Repr

/-- Python `str(v)` for the modelled scalars, as interpolated by the
f-string `f"{k}={v}"` in `PlainFormatter.format`. -/
def pyStr : PyVal → String
  | .vstr s => s
  | .vint n => String.mk (intChars n)
  | .vbool true => "True"
  | .vbool false => "False"
  | .vnone => "None"

/-- JSON values as handled by `json.dumps`/`json.loads` for the shapes the
formatter produces: strings, ints, booleans, null, and objects as ordered
field lists (Python dicts preserve insertion order). -/
inductive JValue where
  | jstr (s : String)
  | jint (n : Int)
  | jbool (b : Bool)
  | jnull
  | jobj (fields : List (String × JValue))
deriving Repr

/-- `json.dumps` rendering of a modelled scalar. -/
def pyToJson : PyVal → JValue
  | .vstr s => .jstr s
  | .vint n => .jint n
  | .vbool b => .jbool b
  | .vnone => .jnull

/-- Lowercase hex digit characters, as emitted by `json.dumps` in
`\uXXXX` escapes. -/
def hexDigitChar (n : Nat) : Char :=
  match n with
  | 0 => '0' | 1 => '1' | 2 => '2' | 3 => '3' | 4 => '4'
  | 5 => '5' | 6 => '6' | 7 => '7' | 8 => '8' | 9 => '9'
  | 10 => 'a' | 11 => 'b' | 12 => 'c' | 13 => 'd' | 14 => 'e' | _ => 'f'

/-- A `\uXXXX` escape for a code unit below 0x10000. -/
def uEscape (n : Nat) : List Char :=
  ['\\', 'u', hexDigitChar (n / 4096 % 16), hexDigitChar (n / 256 % 16),
   hexDigitChar (n / 16 % 16), hexDigitChar (n % 16)]

/-- The per-character escaping of CPython `json.dumps` with the default
`ensure_ascii=True` (`py_encode_basestring_ascii`): backslash, quote and the
named control escapes, `\uXXXX` for other controls and all non-ASCII code
points, with surrogate pairs above 0xFFFF; printable ASCII is literal. -/
def escapeChar (c : Char) : List Char :=
  if c = '"' then ['\\', '"']
  else if c = '\\' then ['\\', '\\']
  else if c = '\n' then ['\\', 'n']
  else if c = '\t' then ['\\', 't']
  else if c = '\x0d' then ['\\', 'r']
  else if c = '\x08' then ['\\', 'b']
  else if c = '\x0c' then ['\\', 'f']
  else if c.toNat < 32 then uEscape c.toNat
  else if c.toNat < 127 then [c]
  else if c.toNat < 65536 then uEscape c.toNat
  else
    uEscape (55296 + (c.toNat - 65536) / 1024) ++ uEscape (56320 + (c.toNat - 65536) % 1024)

/-- The characters of a JSON string literal for `s`, quotes included. -/
def jstrChars (s : String) : List Char :=
  '"' :: (s.data.map escapeChar).flatten ++ ['"']

mutual

/-- `json.dumps` with its defaults (separators `", "` and `": "`,
`ensure_ascii=True`), restricted to the value shapes the formatter emits. -/
def jdumpChars : JValue → List Char
  | .jstr s => jstrChars s
  | .jint n => intChars n
  | .jbool true => ['t', 'r', 'u', 'e']
  | .jbool false => ['f', 'a', 'l', 's', 'e']
  | .jnull => ['n', 'u', 'l', 'l']
  | .jobj fields => '{' :: (jdumpMembers fields ++ ['}'])

/-- The members of a dumped object, `", "`-separated. -/
def jdumpMembers : List (String × JValue) → List Char
  | [] => []
  | [(k, v)] => jstrChars k ++ ':' :: ' ' :: jdumpChars v
  | (k, v) :: rest =>
      jstrChars k ++ ':' :: ' ' :: (jdumpChars v ++ ',' :: ' ' :: jdumpMembers rest)

end

/-- `json.dumps` as a string. -/
def jdumps (v : JValue) : String := String.mk (jdumpChars v)

/-- The `log_entry` dict built in `Logger.log` (its four keys, in insertion
order, are `level`, `timestamp`, `message`, `context`). -/
structure LogEntry where
  level : String
  timestamp : String
  message : String
  context : List (String × PyVal)
deriving DecidableEq, Repr

/-- Values of the `log_entry` dict (strings, plus the nested context
mapping), for stating claims about the dict as an ordered mapping. -/
inductive EntryVal where
  | es (s : String)
  | ectx (m : List (String × PyVal))
deriving DecidableEq, Repr

/-- The `log_entry` dict of `Logger.log` as the ordered key/value list it is
in Python (dicts preserve insertion order). -/
def LogEntry.asDict (e : LogEntry) : List (String × EntryVal) :=
  [("level", .es e.level), ("timestamp", .es e.timestamp),
   ("message", .es e.message), ("context", .ectx e.context)]

/-- The `log_entry` construction in `Logger.log`: `level.value`, the capture
instant `nowEmit` formatted with the fixed pattern, the message, and the
keyword-argument context.  `strftime` models `datetime.strftime`. -/
def mkLogEntry (strftime : String → Nat → String) (level : LogLevel)
    (message : String) (context : List (String × PyVal)) (nowEmit : Nat) : LogEntry :=
  { level := level.value,
    timestamp := strftime "%Y-%m-%d %H:%M:%S" nowEmit,
    message := message,
    context := context }

/-- The `context` attribute of the shared `logging.LogRecord`: initially the
kwargs mapping passed via `extra`, but `PlainFormatter.format` rebinds it to
the joined `k=v` string, and — stdlib `Logger.callHandlers` passing the one
record object to every handler — each later handler of the same dispatch
sees the rebound value. -/
inductive RecordCtx where
  | ctxMap (m : List (String × PyVal))
  | ctxStr (s : String)
deriving DecidableEq, Repr

/-- A stdlib `logging.LogRecord` as the formatters consume it: numeric level,
level name, message, creation instant (`record.created`, read at record
creation inside `Logger._emit_log`, i.e. at dispatch), the millisecond part
(`record.msecs`; instants are whole seconds here, so dispatch records carry
0), and the current state of the `context` attribute. -/
structure LogRecord where
  levelno : Nat
  levelname : String
  message : String
  created : Nat
  msecs : Nat
  context : RecordCtx
deriving DecidableEq, Repr

/-- Zero-padded three-digit decimal (the `%03d` of the stdlib millisecond
suffix). -/
def pad3 (n : Nat) : String :=
  if n < 10 then "00" ++ decStrNat n
  else if n < 100 then "0" ++ decStrNat n
  else decStrNat n

/-- stdlib `logging.getLevelName` for the standard numeric levels. -/
def getLevelName (n : Nat) : String :=
  if n = 50 then "CRITICAL"
  else if n = 40 then "ERROR"
  else if n = 30 then "WARNING"
  else if n = 20 then "INFO"
  else if n = 10 then "DEBUG"
  else "Level " ++ decStrNat n

mutual

/-- `str.format`-style substitution used by `logging.StrFormatStyle` for the
`style="{"` format string of `PlainFormatter`: literal characters are copied
and `\x7bname\x7d` placeholders are replaced by the named field. -/
def strFormat (fields : List (String × String)) : List Char → List Char
  | [] => []
  | c :: rest =>
      if c = '{' then formatField fields [] rest
      else c :: strFormat fields rest

/-- Reads a placeholder name up to the closing brace and substitutes the
named field (the template only uses names present in the record). -/
def formatField (fields : List (String × String)) (acc : List Char) :
    List Char → List Char
  | [] => []
  | c :: rest =>
      if c = '}' then ((fields.lookup (String.mk acc)).getD "").data ++ strFormat fields rest
      else formatField fields (acc ++ [c]) rest

end

/-- The `fmt` argument `PlainFormatter.__init__` passes to
`logging.Formatter`. -/
def plainTemplate : String := "[{asctime}] [{levelname}] {message} {context}"

/-- `logging.Formatter.formatTime` with `datefmt = None`: the stdlib
default pattern `"%Y-%m-%d %H:%M:%S"` followed by the `",%03d"` millisecond
suffix.  `PlainFormatter` passes no `datefmt`, and its template uses
`asctime`, so `logging.Formatter.format` overwrites the `record.asctime`
that `PlainFormatter.format` first set from the configured pattern: the
sink's configured `timestamp_format` never reaches plain output. -/
def stdlibAsctime (strftime : String → Nat → String) (r : LogRecord) : String :=
  strftime "%Y-%m-%d %H:%M:%S" r.created ++ "," ++ pad3 r.msecs

/-- The `" ".join(f"\x7bk\x7d=\x7bv\x7d" ...)` over `.items()` in
`PlainFormatter.format`: joins a mapping context; unpacking the items of a
string context (left by an earlier Plain handler of the same dispatch)
raises `AttributeError` — `str` has no `.items`. -/
def plainCtxJoin : RecordCtx → Except String String
  | .ctxMap m =>
      .ok (String.intercalate " " (m.map (fun kv => kv.1 ++ "=" ++ pyStr kv.2)))
  | .ctxStr _ => .error "AttributeError: str object has no attribute items"

/-- `PlainFormatter.format`: sets `record.asctime` from the configured
pattern (a dead store — see `stdlibAsctime`), rebinds `record.context` to
the joined string, then calls `logging.Formatter.format`, which overwrites
`asctime` with the stdlib default rendering and substitutes the template.
Returns the rendered text and the mutated record; the join raises
`AttributeError` (before mutating) when an earlier Plain handler already
rebound the context attribute to a string. -/
def plainFormat (strftime : String → Nat → String) (_tsfmt : String)
    (r : LogRecord) : Except String (String × LogRecord) :=
  match plainCtxJoin r.context with
  | .error e => .error e
  | .ok ctx =>
      .ok (String.mk (strFormat
          [("asctime", stdlibAsctime strftime r), ("levelname", r.levelname),
           ("message", r.message), ("context", ctx)] plainTemplate.data),
        { r with context := .ctxStr ctx })

/-- The JSON rendering of the record's current `context` attribute:
`json.dumps` encodes the mapping as an object, and a context already
rebound to a string by an earlier Plain handler as a JSON string. -/
def jsonCtxValue : RecordCtx → JValue
  | .ctxMap m => .jobj (m.map (fun kv => (kv.1, pyToJson kv.2)))
  | .ctxStr s => .jstr s

/-- The dict literal of `JSONFormatter.format` as a `JValue`; here the
sink's configured timestamp pattern is applied (to `record.created`, the
dispatch instant). -/
def jsonRecordValue (strftime : String → Nat → String) (tsfmt : String)
    (r : LogRecord) : JValue :=
  .jobj [("level", .jstr r.levelname),
         ("timestamp", .jstr (strftime tsfmt r.created)),
         ("message", .jstr r.message),
         ("context", jsonCtxValue r.context)]

/-- `JSONFormatter.format`: builds the dict with keys `level`, `timestamp`,
`message`, `context` in that order and renders it with `json.dumps`; it
reads the record but does not mutate it. -/
def jsonFormat (strftime : String → Nat → String) (tsfmt : String)
    (r : LogRecord) : String :=
  jdumps (jsonRecordValue strftime tsfmt r)

/-- The formatter attached by `Logger._create_handler` (`JSONFormatter` when
the config format is JSON, else `PlainFormatter`), acting on the shared
record: the rendered text plus the record as later handlers will see it, or
the formatter's exception. -/
def formatRecord (strftime : String → Nat → String) (h : Handler)
    (r : LogRecord) : Except String (String × LogRecord) :=
  match h.fmt with
  | .JSON => .ok (jsonFormat strftime h.tsfmt r, r)
  | .PLAIN => plainFormat strftime h.tsfmt r

/-- stdlib `Handler.handle`/`StreamHandler.emit` for one handler:
`Logger.callHandlers` invokes the handler only when
`record.levelno >= handler.level`; the handler formats the record and
writes the text plus the `"\n"` terminator, and a formatter exception is
caught (`handleError`) so nothing is written to this sink.  Returns this
handler's written lines and the possibly-mutated record. -/
def handlerEmit (strftime : String → Nat → String) (h : Handler)
    (r : LogRecord) : List String × LogRecord :=
  if h.level ≤ r.levelno then
    match formatRecord strftime h r with
    | .ok p => ([p.1 ++ "\n"], p.2)
    | .error _ => ([], r)
  else ([], r)

/-- stdlib `Logger.callHandlers`: offers the one shared record to each
attached handler in attachment order, so a mutation by one formatter is
seen by every later handler of the same dispatch.  Returns the written
lines, one list per handler. -/
def callHandlers (strftime : String → Nat → String) :
    List Handler → LogRecord → List (List String) × LogRecord
  | [], r => ([], r)
  | h :: hs, r =>
      let p := handlerEmit strftime h r
      let q := callHandlers strftime hs p.2
      (p.1 :: q.1, q.2)

/-- The fresh record built inside the stdlib logger for one `_emit_log`
call at dispatch instant `nowDispatch` (a new record per dispatched event,
its context attribute initially the kwargs mapping). -/
def dispatchRecord (l : LogLevel) (message : String)
    (context : List (String × PyVal)) (nowDispatch : Nat) : LogRecord :=
  { levelno := levelMap l,
    levelname := getLevelName (levelMap l),
    message := message,
    created := nowDispatch,
    msecs := 0,
    context := .ctxMap context }

/-- `Logger._emit_log`: looks the entry's level string back up with
`LogLevel[...]` (none models the `KeyError`), then calls
`self.logger.log(levelno, message, extra={"context": ...})`, which — the
logger's level being DEBUG — builds a record at the dispatch instant and
offers it to every attached handler via `callHandlers`.  Result: the lines
written, one list per handler in attachment order. -/
def emitLog (strftime : String → Nat → String) (handlers : List Handler)
    (entry : LogEntry) (nowDispatch : Nat) : Option (List (List String)) :=
  match levelOfName entry.level with
  | none => none
  | some l =>
      let r := dispatchRecord l entry.message entry.context nowDispatch
      if 10 ≤ r.levelno then some (callHandlers strftime handlers r).1
      else some (handlers.map (fun _ => []))

/-- `self.logger.error(msg)` as used to report a callback failure: a direct
stdlib call that builds an ERROR record (no `context` extra, so the
formatters see an empty mapping) and offers it to the attached handlers —
it does not go through `Logger.log`, the queue, `_process_log_entry` or the
callback. -/
def loggerError (strftime : String → Nat → String) (handlers : List Handler)
    (msg : String) (nowDispatch : Nat) : List (List String) :=
  let r : LogRecord :=
    { levelno := 40, levelname := getLevelName 40, message := msg,
      created := nowDispatch, msecs := 0, context := .ctxMap [] }
  (callHandlers strftime handlers r).1

/-- One observable step of processing an entry: a write of one line by one
handler (identified by its position), or an invocation of the observer
callback with an entry. -/
inductive Effect where
  | write (handlerIdx : Nat) (line : String)
  | cbCall (entry : LogEntry)
deriving DecidableEq, Repr

/-- The write effects of a per-handler output list, in handler order. -/
def writeEffects (outs : List (List String)) : List Effect :=
  (outs.enum.map (fun p => p.2.map (Effect.write p.1))).flatten

/-- The callback invocations recorded in an effect trace. -/
def cbCalls (trace : List Effect) : List LogEntry :=
  trace.filterMap (fun e => match e with | .cbCall x => some x | _ => none)

/-- `Logger._process_log_entry`: emit the entry to the handlers, then — if a
callback is configured — invoke it exactly once with the entry; a raising
callback is caught and reported through `self.logger.error`.  The result is
the ordered effect trace; `none` propagates the `KeyError` of an entry whose
level string is unknown (never produced by `Logger.log`). -/
def processLogEntry (strftime : String → Nat → String) (handlers : List Handler)
    (cb : Option (LogEntry → Except String PUnit)) (entry : LogEntry)
    (nowDispatch : Nat) : Option (List Effect) :=
  match emitLog strftime handlers entry nowDispatch with
  | none => none
  | some outs =>
      let sinkEffects := writeEffects outs
      match cb with
      | none => some sinkEffects
      | some f =>
          match f entry with
          | .ok _ => some (sinkEffects ++ [.cbCall entry])
          | .error e =>
              some (sinkEffects ++ [.cbCall entry] ++
                writeEffects (loggerError strftime handlers ("Callback error: " ++ e) nowDispatch))

/-- `Logger.log` in synchronous mode: the facade-level check against the
logger's level (DEBUG after init), entry construction at the emit instant,
then synchronous dispatch at the dispatch instant. -/
def loggerLogSync (strftime : String → Nat → String) (handlers : List Handler)
    (cb : Option (LogEntry → Except String PUnit)) (level : LogLevel)
    (message : String) (context : List (String × PyVal))
    (nowEmit nowDispatch : Nat) : Option (List Effect) :=
  if levelMap level < 10 then some []
  else processLogEntry strftime handlers cb
    (mkLogEntry strftime level message context nowEmit) nowDispatch

/-- Zero-padded two-digit decimal. -/
def pad2 (n : Nat) : String :=
  if n < 10 then "0" ++ decStrNat n else decStrNat n

/-- Zero-padded four-digit decimal (years of interest are above 999). -/
def pad4 (n : Nat) : String :=
  if n < 10 then "000" ++ decStrNat n
  else if n < 100 then "00" ++ decStrNat n
  else if n < 1000 then "0" ++ decStrNat n
  else decStrNat n

/-- Gregorian civil date (year, month, day) from a count of days since
1970-01-01 (the standard era-based algorithm). -/
def civilFromDays (z0 : Nat) : Nat × Nat × Nat :=
  let z := z0 + 719468
  let era := z / 146097
  let doe := z % 146097
  let yoe := (doe - doe / 1460 + doe / 36524 - doe / 146096) / 365
  let y := yoe + era * 400
  let doy := doe - (365 * yoe + yoe / 4 - yoe / 100)
  let mp := (5 * doy + 2) / 153
  let d := doy - (153 * mp + 2) / 5 + 1
  let m := if mp < 10 then mp + 3 else mp - 9
  (if m ≤ 2 then y + 1 else y, m, d)

/-- Rendering of an epoch-second instant under the pattern
`"%Y-%m-%d %H:%M:%S"`. -/
def formatYmdHms (t : Nat) : String :=
  let days := t / 86400
  let secs := t % 86400
  let ymd := civilFromDays days
  pad4 ymd.1 ++ "-" ++ pad2 ymd.2.1 ++ "-" ++ pad2 ymd.2.2 ++ " " ++
    pad2 (secs / 3600) ++ ":" ++ pad2 (secs % 3600 / 60) ++ ":" ++ pad2 (secs % 60)

/-- A concrete executable instance of the external `datetime.strftime`
collaborator, for evaluating claims at concrete inputs.  Every concrete
input below uses the default pattern `"%Y-%m-%d %H:%M:%S"`, so the instance
renders any pattern argument that way; general theorems quantify over an
arbitrary `strftime` instead. -/
def strftimeModel (_fmt : String) (t : Nat) : String := formatYmdHms t

/-- The program counter of the drain task `Logger._process_log_queue`:
not yet started (`start()` not called, `_stop_event` is `None`), at the
`while` condition, suspended in `await self.log_queue.get()`, or exited. -/
inductive DrainPC where
  | notStarted
  | atCheck
  | awaitGet
  | exited
deriving DecidableEq, Repr

/-- The observable state of an async-mode facade: the `log_queue.put`
tasks spawned by `Logger.log` that have not yet run, the queue contents,
the `_stop_event` flag, the drain task's program counter, the entries the
drain task has dispatched (in order), and whether a pending `shutdown()`
call has returned. -/
structure AsyncState where
  pendingPuts : List LogEntry
  queue : List LogEntry
  stopSet : Bool
  drain : DrainPC
  processed : List LogEntry
  shutdownReturned : Bool
deriving DecidableEq, Repr

/-- The event-loop steps of the async machinery, read off
`Logger.log` (fire-and-forget `create_task(put(...))`), `Logger.start`,
`Logger.shutdown` and `Logger._process_log_queue`:

* `put`: a spawned put task runs, appending its entry to the queue;
* `checkExit`: at the `while` condition with the stop event set and the
  queue empty, the loop exits;
* `checkLoop`: at the `while` condition otherwise, the loop body is entered
  and the drain suspends in `queue.get()`;
* `getStep`: `queue.get()` resumes on a nonempty queue; the entry is
  dispatched synchronously (`_process_log_entry`, `task_done`) and control
  returns to the `while` condition;
* `shutdownSet`: `shutdown()` (on a started facade) sets the stop event and
  begins awaiting the drain task;
* `shutdownReturn`: `await self._queue_task` resumes once the drain task has
  exited, and `shutdown()` returns.

`queue.get()` on an empty queue has no step: the coroutine stays suspended
until an item arrives — it does not watch the stop event. -/
inductive AStep : AsyncState → AsyncState → Prop where
  | put (s : AsyncState) (e : LogEntry) (rest : List LogEntry)
      (h : s.pendingPuts = e :: rest) :
      AStep s { s with pendingPuts := rest, queue := s.queue ++ [e] }
  | checkExit (s : AsyncState) (h : s.drain = .atCheck) (hstop : s.stopSet = true)
      (hq : s.queue = []) :
      AStep s { s with drain := .exited }
  | checkLoop (s : AsyncState) (h : s.drain = .atCheck)
      (hcond : s.stopSet = false ∨ s.queue ≠ []) :
      AStep s { s with drain := .awaitGet }
  | getStep (s : AsyncState) (e : LogEntry) (q : List LogEntry)
      (h : s.drain = .awaitGet) (hq : s.queue = e :: q) :
      AStep s { s with queue := q, drain := .atCheck, processed := s.processed ++ [e] }
  | shutdownSet (s : AsyncState) (h : s.drain ≠ .notStarted) (hstop : s.stopSet = false) :
      AStep s { s with stopSet := true }
  | shutdownReturn (s : AsyncState) (hstop : s.stopSet = true) (h : s.drain = .exited)
      (hr : s.shutdownReturned = false) :
      AStep s { s with shutdownReturned := true }

/-- The state right after `await logger.start()` on a fresh async facade:
nothing pending, empty queue, stop event created but not set, drain task
created and about to evaluate the `while` condition. -/
def startedState : AsyncState :=
  { pendingPuts := [], queue := [], stopSet := false, drain := .atCheck,
    processed := [], shutdownReturned := false }

/-- The state reached when the drain task has caught up (suspended in
`queue.get()` on the empty queue) and `shutdown()` has then set the stop
event: the state the repository's own `async_example.py` reaches after its
`await asyncio.sleep(1)` and `await logger.shutdown()`. -/
def stuckState : AsyncState :=
  { pendingPuts := [], queue := [], stopSet := true, drain := .awaitGet,
    processed := [], shutdownReturned := false }

/-- `Logger.shutdown` run to completion as a state function: outside async
mode, or before `start()` has created `_stop_event`, the body is a no-op;
otherwise it sets the stop event and awaits the drain task, which is
modelled as returning exactly when the drain task has already exited and as
nontermination (`none`) otherwise — sufficient for the idempotence and
no-op claims, which concern a completed or never-started shutdown. -/
def shutdownRun (asyncMode : Bool) (s : AsyncState) : Option AsyncState :=
  if asyncMode = true ∧ s.drain ≠ .notStarted then
    let s2 := { s with stopSet := true }
    if s2.drain = .exited then some s2 else none
  else some s

/-- JSON insignificant whitespace (space, tab, line feed, carriage
return). -/
def isWsChar (c : Char) : Bool :=
  c.toNat = 32 || c.toNat = 9 || c.toNat = 10 || c.toNat = 13

/-- Skip insignificant whitespace. -/
def skipWs : List Char → List Char
  | [] => []
  | c :: rest => if isWsChar c then skipWs rest else c :: rest

/-- Value of a hex digit (JSON accepts both cases). -/
def hexVal (c : Char) : Option Nat :=
  if 48 ≤ c.toNat ∧ c.toNat ≤ 57 then some (c.toNat - 48)
  else if 97 ≤ c.toNat ∧ c.toNat ≤ 102 then some (c.toNat - 87)
  else if 65 ≤ c.toNat ∧ c.toNat ≤ 70 then some (c.toNat - 55)
  else none

/-- Value of four hex digits. -/
def hex4 (a b c d : Char) : Option Nat :=
  match hexVal a, hexVal b, hexVal c, hexVal d with
  | some va, some vb, some vc, some vd => some (((va * 16 + vb) * 16 + vc) * 16 + vd)
  | _, _, _, _ => none

/-- Decoded character of a short escape after a backslash. -/
def escCharVal (e : Char) : Option Char :=
  if e = '"' then some '"'
  else if e = '\\' then some '\\'
  else if e = '/' then some '/'
  else if e = 'n' then some '\n'
  else if e = 't' then some '\t'
  else if e = 'r' then some '\x0d'
  else if e = 'b' then some '\x08'
  else if e = 'f' then some '\x0c'
  else none

/-- Prepend a decoded character to a string-body parse result. -/
def consChar (c : Char) : Option (List Char × List Char) → Option (List Char × List Char)
  | none => none
  | some p => some (c :: p.1, p.2)

mutual

/-- Parse the body of a JSON string literal after its opening quote, up to
and including the closing quote; returns the decoded characters and the
remaining input.  `\uXXXX` escapes are decoded, with surrogate pairs
recombined and lone surrogates rejected. -/
def parseStringBody : List Char → Option (List Char × List Char)
  | [] => none
  | c :: rest =>
      if c = '"' then some ([], rest)
      else if c = '\\' then parseEscape rest
      else consChar c (parseStringBody rest)

/-- Parse one escape sequence (input begins after the backslash). -/
def parseEscape : List Char → Option (List Char × List Char)
  | [] => none
  | e :: rest =>
      if e = 'u' then parseU rest
      else
        match escCharVal e with
        | some c2 => consChar c2 (parseStringBody rest)
        | none => none

/-- Parse the four hex digits of a `\uXXXX` escape and decode; a high
surrogate demands a following low-surrogate escape, a lone low surrogate is
rejected. -/
def parseU : List Char → Option (List Char × List Char)
  | a :: b :: c :: d :: rest2 =>
      match hex4 a b c d with
      | none => none
      | some n =>
          if 55296 ≤ n ∧ n < 56320 then parseLowSurrogate n rest2
          else if 56320 ≤ n ∧ n < 57344 then none
          else consChar (Char.ofNat n) (parseStringBody rest2)
  | _ => none

/-- Parse the low-surrogate escape following a high surrogate `n` and emit
the recombined code point. -/
def parseLowSurrogate (n : Nat) : List Char → Option (List Char × List Char)
  | x :: y :: a2 :: b2 :: c2 :: d2 :: rest3 =>
      if x = '\\' ∧ y = 'u' then
        match hex4 a2 b2 c2 d2 with
        | none => none
        | some m =>
            if 56320 ≤ m ∧ m < 57344 then
              consChar (Char.ofNat (65536 + (n - 55296) * 1024 + (m - 56320)))
                (parseStringBody rest3)
            else none
      else none
  | _ => none

end

/-- Greedy decimal-digit run with accumulator. -/
def parseNatAux (acc : Nat) : List Char → Nat × List Char
  | [] => (acc, [])
  | c :: rest =>
      if 48 ≤ c.toNat ∧ c.toNat ≤ 57 then parseNatAux (acc * 10 + (c.toNat - 48)) rest
      else (acc, c :: rest)

/-- Parse a nonnegative decimal integer (at least one digit). -/
def parseNat : List Char → Option (Nat × List Char)
  | [] => none
  | c :: rest =>
      if 48 ≤ c.toNat ∧ c.toNat ≤ 57 then some (parseNatAux 0 (c :: rest))
      else none

/-- Match an expected literal suffix (for `true`, `false`, `null`). -/
def expectChars : List Char → List Char → Option (List Char)
  | [], s => some s
  | _ :: _, [] => none
  | e :: erest, c :: rest => if c = e then expectChars erest rest else none

mutual

/-- A recursive-descent JSON value reader for the grammar fragment
`json.dumps` emits for the formatter's dicts (strings, integers, booleans,
null, objects), with insignificant whitespace allowed at token boundaries.
`fuel` bounds the nesting recursion. -/
def parseValue : Nat → List Char → Option (JValue × List Char)
  | 0, _ => none
  | fuel + 1, s =>
      match skipWs s with
      | [] => none
      | c :: rest =>
          if c = '"' then
            match parseStringBody rest with
            | some p => some (.jstr (String.mk p.1), p.2)
            | none => none
          else if c = '{' then
            match parseMembers fuel rest with
            | some p => some (.jobj p.1, p.2)
            | none => none
          else if c = 't' then
            match expectChars ['r', 'u', 'e'] rest with
            | some rest2 => some (.jbool true, rest2)
            | none => none
          else if c = 'f' then
            match expectChars ['a', 'l', 's', 'e'] rest with
            | some rest2 => some (.jbool false, rest2)
            | none => none
          else if c = 'n' then
            match expectChars ['u', 'l', 'l'] rest with
            | some rest2 => some (.jnull, rest2)
            | none => none
          else if c = '-' then
            match parseNat rest with
            | some p => some (.jint (-(p.1 : Int)), p.2)
            | none => none
          else
            match parseNat (c :: rest) with
            | some p => some (.jint (p.1 : Int), p.2)
            | none => none

/-- Read the members of an object after its opening brace, up to and
including the closing brace. -/
def parseMembers : Nat → List Char → Option (List (String × JValue) × List Char)
  | 0, _ => none
  | fuel + 1, s =>
      match skipWs s with
      | [] => none
      | c :: rest =>
          if c = '}' then some ([], rest)
          else if c = '"' then
            match parseStringBody rest with
            | none => none
            | some (key, rest2) =>
                match skipWs rest2 with
                | ':' :: rest3 =>
                    match parseValue fuel (skipWs rest3) with
                    | none => none
                    | some (v, rest4) =>
                        match skipWs rest4 with
                        | ',' :: rest5 =>
                            match parseMembers fuel (skipWs rest5) with
                            | some p => some ((String.mk key, v) :: p.1, p.2)
                            | none => none
                        | '}' :: rest5 => some ([(String.mk key, v)], rest5)
                        | _ => none
                | _ => none
          else none

end

mutual

/-- Structural size of a JSON value, bounding the fuel `parseValue` needs. -/
def sizeJ : JValue → Nat
  | .jobj fields => 2 + sizeMembers fields
  | _ => 1

/-- Structural size of an object's member list. -/
def sizeMembers : List (String × JValue) → Nat
  | [] => 0
  | (_, v) :: rest => 1 + sizeJ v + sizeMembers rest

end

/-- `json.loads`: parse a complete document, allowing trailing whitespace
only. -/
def jloads (s : String) : Option JValue :=
  match parseValue (s.length + 1) s.data with
  | some (v, rest) => if skipWs rest = [] then some v else none
  | none => none

theorem levelOfName_value (l : LogLevel) : levelOfName l.value = some l := by
  cases l <;> rfl

theorem levelMap_ge (l : LogLevel) : 10 ≤ levelMap l := by
  cases l <;> simp [levelMap]

theorem getLevelName_levelMap (l : LogLevel) : getLevelName (levelMap l) = l.value := by
  cases l <;> rfl

theorem initHandlers_ok_append (pre tail : List HandlerConfig) (acc : List Handler)
    (hpre : ∀ c2 ∈ pre, (createHandler c2).toOption.isSome) :
    initHandlers (pre ++ tail) acc =
      initHandlers tail (acc ++ pre.filterMap (fun c2 => (createHandler c2).toOption)) := by
  induction pre generalizing acc with
  | nil => simp
  | cons p pre ih =>
      have hp : (createHandler p).toOption.isSome := hpre p (by simp)
      cases hcp : createHandler p with
      | ok hh =>
          have : initHandlers ((p :: pre) ++ tail) acc = initHandlers (pre ++ tail) (acc ++ [hh]) := by
            simp [initHandlers, hcp]
          rw [this, ih (acc ++ [hh]) (fun c2 hc2 => hpre c2 (by simp [hc2]))]
          simp [List.filterMap_cons, hcp, Except.toOption]
      | error e => simp [hcp, Except.toOption] at hp

/-- C7 (amended): constructing a facade with a File sink that has no path,
or with an unsupported sink kind, raises `ValueError` synchronously to the
constructor caller; however handlers already created for configs preceding
the failing one remain attached to the process-wide logger — construction
is not free of partially-started state. -/
theorem config_error_partial_attach (pre post : List HandlerConfig) (c : HandlerConfig)
    (e : String) (g : GlobalState)
    (hpre : ∀ c2 ∈ pre, (createHandler c2).toOption.isSome)
    (herr : createHandler c = .error e) :
    loggerInit (pre ++ c :: post) g =
      ({ handlers := pre.filterMap (fun c2 => (createHandler c2).toOption), level := 10 }, some e)
  ∧ (∀ cfg : HandlerConfig, cfg.handler_type = .FILE → cfg.filename = none →
      createHandler cfg = .error "File handler requires a filename.")
  ∧ (∀ (cfg : HandlerConfig) (r : String), cfg.handler_type = .OTHER r →
      createHandler cfg = .error ("Unsupported handler type: " ++ r)) := by
  refine ⟨?_, ?_, ?_⟩
  · unfold loggerInit
    rw [initHandlers_ok_append pre (c :: post) [] hpre]
    simp [initHandlers, herr]
  · intro cfg h1 h2
    simp [createHandler, h1, h2]
  · intro cfg r h1
    simp [createHandler, h1]

theorem config_error_partial_attach_witness :
    loggerInit [{}, { handler_type := .FILE }] { handlers := [], level := 0 } =
      ({ handlers := [{ kind := .stream, level := 20, fmt := .PLAIN,
                        tsfmt := "%Y-%m-%d %H:%M:%S" }], level := 10 },
       some "File handler requires a filename.") :=
  (config_error_partial_attach [{}] [] { handler_type := .FILE }
    "File handler requires a filename." { handlers := [], level := 0 }
    (by decide) (by rfl)).1

theorem config_error_partial_attach_cex :
    ((loggerInit [{}, { handler_type := .FILE }] { handlers := [], level := 0 }).2 =
      some "File handler requires a filename.")
  ∧ (loggerInit [{}, { handler_type := .FILE }] { handlers := [], level := 0 }).1.handlers ≠ [] := by
  exact ⟨by decide, by decide⟩

/-- C8 (amended): every facade instance aliases the one process-wide logger
`"AdvancedLogger"`; constructing a facade clears that logger's handlers and
installs only the new configuration's handlers, so a second construction
replaces the first instance's sinks (the result is independent of whatever
the first construction installed). -/
theorem shared_logger_replacement (cfgA cfgB : List HandlerConfig) (g : GlobalState) :
    (loggerInit cfgB (loggerInit cfgA g).1).1 = (loggerInit cfgB g).1
  ∧ (loggerInit cfgB (loggerInit cfgA g).1).1.handlers = (initHandlers cfgB []).1 :=
  ⟨rfl, rfl⟩

theorem shared_logger_replacement_cex :
    (loggerInit [{ level := .ERROR }]
        (loggerInit [{ level := .DEBUG }] { handlers := [], level := 0 }).1).1.handlers ≠
      (loggerInit [{ level := .DEBUG }] { handlers := [], level := 0 }).1.handlers := by
  decide

/-- C9: `shutdown()` is idempotent and a no-op when never started: on a
state where a completed shutdown has left the stop event set and the drain
task exited, running the `shutdown` body again returns the same state and
raises nothing; before `start()` has created `_stop_event` (and in
synchronous mode) the body does nothing. -/
theorem shutdown_idempotent_noop :
    (∀ (am : Bool) (s : AsyncState), s.stopSet = true → s.drain = .exited →
      shutdownRun am s = some s)
  ∧ (∀ (am : Bool) (s : AsyncState), s.drain = .notStarted → shutdownRun am s = some s)
  ∧ (∀ s : AsyncState, shutdownRun false s = some s) := by
  refine ⟨?_, ?_, ?_⟩
  · intro am s h1 h2
    cases s
    cases am <;> simp_all [shutdownRun]
  · intro am s h
    cases s
    simp_all [shutdownRun]
  · intro s
    simp [shutdownRun]

theorem shutdown_idempotent_noop_witness :
    shutdownRun true
      { pendingPuts := [], queue := [], stopSet := true, drain := .exited,
        processed := [], shutdownReturned := true } =
    some
      { pendingPuts := [], queue := [], stopSet := true, drain := .exited,
        processed := [], shutdownReturned := true } :=
  shutdown_idempotent_noop.1 true
    { pendingPuts := [], queue := [], stopSet := true, drain := .exited,
      processed := [], shutdownReturned := true } rfl rfl

/-- C1: refuted by a deadlock the code reaches in ordinary use.  From the
started state the drain task enters the loop body and suspends in
`queue.get()` on the empty queue (`checkLoop`); `shutdown()` then sets the
stop event (`shutdownSet`), reaching `stuckState`.  From `stuckState` no
step is enabled at all — `queue.get()` never resumes on the empty queue and
never observes the stop event — so the drain task never exits and
`shutdown()` never returns: every state reachable from `stuckState` still
has `shutdownReturned = false`.  This is the state the repository's own
`async_example.py` reaches (it sleeps, letting the drain catch up, before
calling `shutdown`). -/
theorem shutdown_deadlock :
    AStep startedState { startedState with drain := .awaitGet }
  ∧ AStep { startedState with drain := .awaitGet } stuckState
  ∧ (∀ s, ¬ AStep stuckState s)
  ∧ stuckState.shutdownReturned = false
  ∧ (∀ s, Relation.ReflTransGen AStep stuckState s → s.shutdownReturned = false) := by
  have hnostep : ∀ s, ¬ AStep stuckState s := by
    intro s h
    cases h <;> simp_all [stuckState]
  refine ⟨?_, ?_, hnostep, rfl, ?_⟩
  · exact AStep.checkLoop startedState rfl (Or.inl rfl)
  · exact AStep.shutdownSet { startedState with drain := .awaitGet } (by simp [startedState]) rfl
  · intro s h
    rcases Relation.ReflTransGen.cases_head h with hb | ⟨c, hc, _⟩
    · rw [← hb]; rfl
    · exact absurd hc (hnostep c)

theorem strFormat_plain (a b m c : String) :
    strFormat [("asctime", a), ("levelname", b), ("message", m), ("context", c)]
      plainTemplate.data =
    '[' :: (a.data ++ ']' :: ' ' :: '[' :: (b.data ++ ']' :: ' ' :: (m.data ++ ' ' :: (c.data ++ [])))) := by
  rfl

theorem plainFormat_eq (strftime : String → Nat → String) (tsfmt : String)
    (r : LogRecord) (m : List (String × PyVal)) (hctx : r.context = .ctxMap m) :
    plainFormat strftime tsfmt r =
      .ok ("[" ++ stdlibAsctime strftime r ++ "] [" ++ r.levelname ++ "] " ++ r.message ++ " " ++
          String.intercalate " " (m.map fun kv => kv.1 ++ "=" ++ pyStr kv.2),
        { r with context := .ctxStr (String.intercalate " " (m.map fun kv => kv.1 ++ "=" ++ pyStr kv.2)) }) := by
  unfold plainFormat
  rw [hctx]
  show Except.ok (String.mk (strFormat
      [("asctime", stdlibAsctime strftime r), ("levelname", r.levelname),
       ("message", r.message),
       ("context", String.intercalate " " (m.map fun kv => kv.1 ++ "=" ++ pyStr kv.2))]
      plainTemplate.data),
    ({ r with context := .ctxStr (String.intercalate " " (m.map fun kv => kv.1 ++ "=" ++ pyStr kv.2)) } : LogRecord)) = _
  have hstr : String.mk (strFormat
      [("asctime", stdlibAsctime strftime r), ("levelname", r.levelname),
       ("message", r.message),
       ("context", String.intercalate " " (m.map fun kv => kv.1 ++ "=" ++ pyStr kv.2))]
      plainTemplate.data) =
      "[" ++ stdlibAsctime strftime r ++ "] [" ++ r.levelname ++ "] " ++ r.message ++ " " ++
        String.intercalate " " (m.map fun kv => kv.1 ++ "=" ++ pyStr kv.2) := by
    apply String.ext
    show (String.mk (strFormat _ plainTemplate.data)).data = _
    rw [strFormat_plain]
    simp [String.data_append]
  rw [hstr]

theorem plainFormat_dispatch (strftime : String → Nat → String) (tsfmt : String)
    (l : LogLevel) (msg : String) (ctx : List (String × PyVal)) (td : Nat) :
    plainFormat strftime tsfmt (dispatchRecord l msg ctx td) =
      .ok ("[" ++ (strftime "%Y-%m-%d %H:%M:%S" td ++ ",000") ++ "] [" ++ l.value ++ "] " ++
          msg ++ " " ++ String.intercalate " " (ctx.map fun kv => kv.1 ++ "=" ++ pyStr kv.2),
        { dispatchRecord l msg ctx td with context := .ctxStr (String.intercalate " " (ctx.map fun kv => kv.1 ++ "=" ++ pyStr kv.2)) }) := by
  rw [plainFormat_eq strftime tsfmt _ ctx rfl]
  have hasct : stdlibAsctime strftime (dispatchRecord l msg ctx td) =
      strftime "%Y-%m-%d %H:%M:%S" td ++ ",000" := by
    show strftime "%Y-%m-%d %H:%M:%S" td ++ "," ++ pad3 0 = _
    rw [String.append_assoc]
    rfl
  rw [hasct]
  simp only [dispatchRecord]
  rw [getLevelName_levelMap]

theorem emitLog_mk (strftime : String → Nat → String) (handlers : List Handler)
    (l : LogLevel) (msg : String) (ctx : List (String × PyVal)) (t0 td : Nat) :
    emitLog strftime handlers (mkLogEntry strftime l msg ctx t0) td =
      some (callHandlers strftime handlers (dispatchRecord l msg ctx td)).1 := by
  simp [emitLog, mkLogEntry, levelOfName_value, dispatchRecord, levelMap_ge]

theorem callHandlers_single (strftime : String → Nat → String) (h : Handler)
    (r : LogRecord) :
    (callHandlers strftime [h] r).1 = [(handlerEmit strftime h r).1] := rfl

theorem handlerEmit_skip (strftime : String → Nat → String) (h : Handler)
    (r : LogRecord) (hlt : r.levelno < h.level) :
    handlerEmit strftime h r = ([], r) := by
  unfold handlerEmit
  rw [if_neg (by omega)]

theorem handlerEmit_ok (strftime : String → Nat → String) (h : Handler)
    (l : LogLevel) (msg : String) (ctx : List (String × PyVal)) (td : Nat)
    (helig : h.level ≤ levelMap l) :
    ∃ line r2, handlerEmit strftime h (dispatchRecord l msg ctx td) = ([line], r2) := by
  unfold handlerEmit
  rw [if_pos (show h.level ≤ (dispatchRecord l msg ctx td).levelno from helig)]
  unfold formatRecord
  cases hfmt : h.fmt with
  | JSON => exact ⟨_, _, rfl⟩
  | PLAIN =>
      rw [plainFormat_eq strftime h.tsfmt _ ctx rfl]
      exact ⟨_, _, rfl⟩

theorem handlerEmit_json (strftime : String → Nat → String) (tsfmt : String)
    (l : LogLevel) (msg : String) (ctx : List (String × PyVal)) (td : Nat) :
    handlerEmit strftime { kind := .stream, level := 10, fmt := .JSON, tsfmt := tsfmt }
      (dispatchRecord l msg ctx td) =
      ([jsonFormat strftime tsfmt (dispatchRecord l msg ctx td) ++ "\n"],
       dispatchRecord l msg ctx td) := by
  unfold handlerEmit
  have hcond : ({ kind := .stream, level := 10, fmt := .JSON, tsfmt := tsfmt } : Handler).level ≤ (dispatchRecord l msg ctx td).levelno := levelMap_ge l
  rw [if_pos hcond]
  rfl

/-- C4: the plain formatter renders exactly the layout
`[<timestamp>] [<SEVERITY>] <message> <ctx>` — the timestamp text being the
stdlib default pattern plus the `",%03d"` millisecond suffix applied to
`record.created` — where `<ctx>` is the `key=value` pairs of the context
space-joined in insertion order, and for an event with empty context the
`<ctx>` part is the empty string (not `\x7b\x7d`). -/
theorem plain_render_layout (strftime : String → Nat → String) (tsfmt : String)
    (l : LogLevel) (msg : String) (ctx : List (String × PyVal)) (td : Nat) :
    (∃ r2, plainFormat strftime tsfmt (dispatchRecord l msg ctx td) =
      .ok ("[" ++ (strftime "%Y-%m-%d %H:%M:%S" td ++ ",000") ++ "] [" ++ l.value ++ "] " ++
          msg ++ " " ++ String.intercalate " " (ctx.map fun kv => kv.1 ++ "=" ++ pyStr kv.2),
        r2))
  ∧ (∃ r2, plainFormat strftime tsfmt (dispatchRecord l msg [] td) =
      .ok ("[" ++ (strftime "%Y-%m-%d %H:%M:%S" td ++ ",000") ++ "] [" ++ l.value ++ "] " ++
          msg ++ " " ++ "", r2)) := by
  constructor
  · exact ⟨_, plainFormat_dispatch strftime tsfmt l msg ctx td⟩
  · have h := plainFormat_dispatch strftime tsfmt l msg [] td
    rw [show String.intercalate " "
        ((([] : List (String × PyVal))).map fun kv => kv.1 ++ "=" ++ pyStr kv.2) = ""
      from rfl] at h
    exact ⟨_, h⟩

/-- C3 counterexample: the same event, captured at instant 0 and dispatched
one second later, renders with timestamp text `1970-01-01 00:00:01,000` —
derived from the dispatch instant and, the sink being Plain, from the
stdlib default pattern with milliseconds rather than the sink's configured
pattern — so the rendered text is neither the configured pattern applied to
the capture instant nor independent of asynchronous delay. -/
theorem capture_time_render_cex :
    emitLog strftimeModel
        [{ kind := .stream, level := 10, fmt := .PLAIN, tsfmt := "%Y-%m-%d %H:%M:%S" }]
        (mkLogEntry strftimeModel .INFO "m" [] 0) 1 =
      some [["[" ++ strftimeModel "%Y-%m-%d %H:%M:%S" 1 ++ ",000" ++ "] [INFO] m \n"]]
  ∧ strftimeModel "%Y-%m-%d %H:%M:%S" 1 ≠ strftimeModel "%Y-%m-%d %H:%M:%S" 0
  ∧ emitLog strftimeModel
        [{ kind := .stream, level := 10, fmt := .PLAIN, tsfmt := "%Y-%m-%d %H:%M:%S" }]
        (mkLogEntry strftimeModel .INFO "m" [] 0) 1 ≠
      emitLog strftimeModel
        [{ kind := .stream, level := 10, fmt := .PLAIN, tsfmt := "%Y-%m-%d %H:%M:%S" }]
        (mkLogEntry strftimeModel .INFO "m" [] 0) 0 := by
  refine ⟨by decide, by decide, by decide⟩

/-- C3 (amended): the rendered timestamp is derived from `record.created` —
the dispatch instant `td` — never from the capture instant `t0`: the JSON
formatter applies the sink's configured pattern to `td`, while for Plain
output the configured pattern is overwritten by `logging.Formatter.format`,
which applies the stdlib default pattern plus the millisecond suffix to
`td`; the capture instant appears (under the fixed default pattern) only in
the `log_entry` the observer callback receives. -/
theorem render_uses_dispatch_time (strftime : String → Nat → String) (tsfmt : String)
    (l : LogLevel) (msg : String) (ctx : List (String × PyVal)) (t0 td : Nat) :
    emitLog strftime [{ kind := .stream, level := 10, fmt := .PLAIN, tsfmt := tsfmt }]
        (mkLogEntry strftime l msg ctx t0) td =
      some [["[" ++ (strftime "%Y-%m-%d %H:%M:%S" td ++ ",000") ++ "] [" ++ l.value ++ "] " ++
        msg ++ " " ++ String.intercalate " " (ctx.map fun kv => kv.1 ++ "=" ++ pyStr kv.2) ++ "\n"]]
  ∧ jsonRecordValue strftime tsfmt (dispatchRecord l msg ctx td) =
      .jobj [("level", .jstr (getLevelName (levelMap l))),
             ("timestamp", .jstr (strftime tsfmt td)),
             ("message", .jstr msg),
             ("context", .jobj (ctx.map (fun kv => (kv.1, pyToJson kv.2))))]
  ∧ (mkLogEntry strftime l msg ctx t0).timestamp = strftime "%Y-%m-%d %H:%M:%S" t0 := by
  refine ⟨?_, rfl, rfl⟩
  rw [emitLog_mk]
  have hE := plainFormat_dispatch strftime tsfmt l msg ctx td
  show some [(handlerEmit strftime
      { kind := .stream, level := 10, fmt := .PLAIN, tsfmt := tsfmt }
      (dispatchRecord l msg ctx td)).1] = _
  unfold handlerEmit
  have hcond : ({ kind := .stream, level := 10, fmt := .PLAIN, tsfmt := tsfmt } : Handler).level ≤ (dispatchRecord l msg ctx td).levelno := levelMap_ge l
  rw [if_pos hcond]
  unfold formatRecord
  rw [show ({ kind := .stream, level := 10, fmt := .PLAIN, tsfmt := tsfmt } : Handler).fmt = .PLAIN from rfl]
  rw [hE]

/-- C6 (amended): per-sink eligibility is `severity >= threshold` in the
severity order (numeric `LEVEL_MAP` order, strictly monotone along the
enum): an event strictly below a sink's threshold writes zero bytes to it,
and an event at or above it writes exactly one rendered line — provided the
dispatch record still carries the kwargs mapping when the sink formats it
(always the case for a facade's first sink, or when no Plain sink precedes
it); a Plain sink preceded by another Plain sink in the same dispatch
raises on the rebound string context, and `Handler.emit` swallows the
exception, so that eligible sink writes nothing. -/
theorem sink_threshold_filtering (strftime : String → Nat → String) (h : Handler)
    (s1 s2 s3 : LogLevel) (msg : String) (ctx : List (String × PyVal)) (t0 td : Nat)
    (hthr : h.level = levelMap s2)
    (h12 : levelMap s1 < levelMap s2) (h23 : levelMap s2 ≤ levelMap s3) :
    emitLog strftime [h] (mkLogEntry strftime s1 msg ctx t0) td = some [[]]
  ∧ (∃ line, emitLog strftime [h] (mkLogEntry strftime s3 msg ctx t0) td = some [[line]])
  ∧ (∀ s : LogLevel, (handlerEmit strftime h (dispatchRecord s msg ctx td)).1 ≠ [] ↔
      levelMap s2 ≤ levelMap s) := by
  refine ⟨?_, ?_, ?_⟩
  · rw [emitLog_mk]
    rw [show (callHandlers strftime [h] (dispatchRecord s1 msg ctx td)).1 =
        [(handlerEmit strftime h (dispatchRecord s1 msg ctx td)).1] from rfl]
    rw [handlerEmit_skip strftime h (dispatchRecord s1 msg ctx td)
      (by simp only [dispatchRecord]; omega)]
  · obtain ⟨line, r2, hE⟩ :=
      handlerEmit_ok strftime h s3 msg ctx td (by rw [hthr]; exact h23)
    refine ⟨line, ?_⟩
    rw [emitLog_mk, callHandlers_single, hE]
  · intro s
    by_cases hle : levelMap s2 ≤ levelMap s
    · obtain ⟨line, r2, hE⟩ :=
        handlerEmit_ok strftime h s msg ctx td (by rw [hthr]; exact hle)
      rw [hE]
      simp [hle]
    · rw [handlerEmit_skip strftime h (dispatchRecord s msg ctx td)
        (by simp only [dispatchRecord]; omega)]
      simp [hle]

theorem sink_threshold_filtering_witness :
    emitLog strftimeModel
        [{ kind := .stream, level := 40, fmt := .PLAIN, tsfmt := "%Y-%m-%d %H:%M:%S" }]
        (mkLogEntry strftimeModel .DEBUG "m" [] 0) 1 = some [[]] :=
  (sink_threshold_filtering strftimeModel
    { kind := .stream, level := 40, fmt := .PLAIN, tsfmt := "%Y-%m-%d %H:%M:%S" }
    .DEBUG .ERROR .CRITICAL "m" [] 0 1 rfl (by decide) (by decide)).1

/-- C6 counterexample: a facade with two Plain sinks, both thresholded at
DEBUG.  An INFO event is eligible for both, yet the dispatch writes one
line to the first sink and zero lines to the second: the first Plain
formatter rebinds the shared record's context to a string, the second
raises `AttributeError` unpacking its items, and `Handler.emit` swallows
the exception — refuting "an event at or above the threshold writes
exactly one rendered line to that sink". -/
theorem sink_threshold_cex :
    emitLog strftimeModel
        [{ kind := .stream, level := 10, fmt := .PLAIN, tsfmt := "%Y-%m-%d %H:%M:%S" },
         { kind := .stream, level := 10, fmt := .PLAIN, tsfmt := "%Y-%m-%d %H:%M:%S" }]
        (mkLogEntry strftimeModel .INFO "m" [] 0) 1 =
      some [["[1970-01-01 00:00:01,000] [INFO] m \n"], []]
  ∧ (10 : Nat) ≤ levelMap .INFO := by
  refine ⟨by decide, by decide⟩

theorem cbCalls_writeEffects (outs : List (List String)) :
    cbCalls (writeEffects outs) = [] := by
  unfold cbCalls writeEffects
  rw [List.filterMap_eq_nil_iff]
  intro a ha
  rcases List.mem_flatten.mp ha with ⟨inner, hinner, hain⟩
  rcases List.mem_map.mp hinner with ⟨p, _, rfl⟩
  rcases List.mem_map.mp hain with ⟨line, _, rfl⟩
  rfl

theorem cbCalls_append (a b : List Effect) :
    cbCalls (a ++ b) = cbCalls a ++ cbCalls b := by
  unfold cbCalls
  exact List.filterMap_append a b _

theorem cbCalls_cbCall_cons (e : LogEntry) (rest : List Effect) :
    cbCalls (Effect.cbCall e :: rest) = e :: cbCalls rest := rfl

theorem cbCalls_nil : cbCalls [] = [] := rfl

/-- C2: for every dispatched event with a configured callback, the effect
trace of `_process_log_entry` is the sink writes (all handlers attempted),
followed by exactly one callback invocation with the event, followed — only
when the callback raises — by the writes of the `self.logger.error` report;
the report path consists of handler writes alone (it cannot invoke the
callback again), and the trace is always produced (dispatch completes). -/
theorem callback_once_isolated (strftime : String → Nat → String)
    (handlers : List Handler) (f : LogEntry → Except String PUnit) (l : LogLevel)
    (msg : String) (ctx : List (String × PyVal)) (t0 td : Nat) :
    (∃ outs, emitLog strftime handlers (mkLogEntry strftime l msg ctx t0) td = some outs
      ∧ processLogEntry strftime handlers (some f) (mkLogEntry strftime l msg ctx t0) td =
          some (writeEffects outs ++ [.cbCall (mkLogEntry strftime l msg ctx t0)] ++
            (match f (mkLogEntry strftime l msg ctx t0) with
             | .ok _ => []
             | .error e =>
                 writeEffects (loggerError strftime handlers ("Callback error: " ++ e) td))))
  ∧ (∀ trace,
      processLogEntry strftime handlers (some f) (mkLogEntry strftime l msg ctx t0) td =
        some trace →
      cbCalls trace = [mkLogEntry strftime l msg ctx t0])
  ∧ (∀ outs, cbCalls (writeEffects outs) = []) := by
  have hmain :
      processLogEntry strftime handlers (some f) (mkLogEntry strftime l msg ctx t0) td =
        some (writeEffects (callHandlers strftime handlers (dispatchRecord l msg ctx td)).1 ++
          [.cbCall (mkLogEntry strftime l msg ctx t0)] ++
          (match f (mkLogEntry strftime l msg ctx t0) with
           | .ok _ => []
           | .error e =>
               writeEffects (loggerError strftime handlers ("Callback error: " ++ e) td))) := by
    unfold processLogEntry
    rw [emitLog_mk]
    cases hf : f (mkLogEntry strftime l msg ctx t0) <;> simp [hf]
  refine ⟨⟨_, emitLog_mk strftime handlers l msg ctx t0 td, hmain⟩, ?_, cbCalls_writeEffects⟩
  intro trace htrace
  rw [hmain] at htrace
  cases htrace
  cases hf : f (mkLogEntry strftime l msg ctx t0) <;>
    simp [hf, cbCalls_append, cbCalls_writeEffects, cbCalls_cbCall_cons, cbCalls_nil]

/-- C10: the single argument passed to the observer callback is the
`log_entry` built in `Logger.log`: an ordered mapping with exactly the keys
`level`, `timestamp`, `message`, `context` in that order, whose `level` is
the severity's name string, whose `context` is the keyword arguments of the
emit call, and whose timestamp is the capture instant formatted with the
fixed pattern `"%Y-%m-%d %H:%M:%S"`, whatever timestamp patterns the sinks
are configured with. -/
theorem callback_argument_shape (strftime : String → Nat → String)
    (handlers : List Handler) (f : LogEntry → Except String PUnit) (l : LogLevel)
    (msg : String) (ctx : List (String × PyVal)) (t0 td : Nat) :
    (∃ trace,
      processLogEntry strftime handlers (some f) (mkLogEntry strftime l msg ctx t0) td =
        some trace
      ∧ cbCalls trace = [mkLogEntry strftime l msg ctx t0])
  ∧ (mkLogEntry strftime l msg ctx t0).asDict =
      [("level", .es l.value),
       ("timestamp", .es (strftime "%Y-%m-%d %H:%M:%S" t0)),
       ("message", .es msg),
       ("context", .ectx ctx)]
  ∧ (mkLogEntry strftime l msg ctx t0).asDict.map Prod.fst =
      ["level", "timestamp", "message", "context"] := by
  refine ⟨?_, rfl, rfl⟩
  have hmain :
      processLogEntry strftime handlers (some f) (mkLogEntry strftime l msg ctx t0) td =
        some (writeEffects (callHandlers strftime handlers (dispatchRecord l msg ctx td)).1 ++
          [.cbCall (mkLogEntry strftime l msg ctx t0)] ++
          (match f (mkLogEntry strftime l msg ctx t0) with
           | .ok _ => []
           | .error e =>
               writeEffects (loggerError strftime handlers ("Callback error: " ++ e) td))) := by
    unfold processLogEntry
    rw [emitLog_mk]
    cases hf : f (mkLogEntry strftime l msg ctx t0) <;> simp [hf]
  refine ⟨_, hmain, ?_⟩
  cases hf : f (mkLogEntry strftime l msg ctx t0) <;>
    simp [hf, cbCalls_append, cbCalls_writeEffects, cbCalls_cbCall_cons, cbCalls_nil]

theorem char_ne_of_toNat {c d : Char} (h : c.toNat ≠ d.toNat) : c ≠ d :=
  fun he => h (by rw [he])

theorem char_toNat_valid (c : Char) :
    c.toNat < 55296 ∨ (57344 ≤ c.toNat ∧ c.toNat < 1114112) := by
  have h := c.valid
  simpa [UInt32.isValidChar, Nat.isValidChar, Char.toNat] using h

theorem skipWs_cons_of_not_ws {c : Char} (h : isWsChar c = false) (l : List Char) :
    skipWs (c :: l) = c :: l := by
  simp [skipWs, h]

theorem isWsChar_false_of_toNat {c : Char}
    (h : c.toNat ≠ 32 ∧ c.toNat ≠ 9 ∧ c.toNat ≠ 10 ∧ c.toNat ≠ 13) :
    isWsChar c = false := by
  simp [isWsChar]
  omega

theorem hexVal_hexDigitChar : ∀ d, d < 16 → hexVal (hexDigitChar d) = some d := by
  decide

theorem hex4_uEscape (n : Nat) (h : n < 65536) :
    hex4 (hexDigitChar (n / 4096 % 16)) (hexDigitChar (n / 256 % 16))
      (hexDigitChar (n / 16 % 16)) (hexDigitChar (n % 16)) = some n := by
  unfold hex4
  rw [hexVal_hexDigitChar _ (Nat.mod_lt _ (by omega)),
      hexVal_hexDigitChar _ (Nat.mod_lt _ (by omega)),
      hexVal_hexDigitChar _ (Nat.mod_lt _ (by omega)),
      hexVal_hexDigitChar _ (Nat.mod_lt _ (by omega))]
  show some (((n / 4096 % 16 * 16 + n / 256 % 16) * 16 + n / 16 % 16) * 16 + n % 16) = some n
  exact congrArg some (by omega)

theorem digitChar10_spec : ∀ d, d < 10 →
    48 ≤ (digitChar10 d).toNat ∧ (digitChar10 d).toNat ≤ 57 ∧ (digitChar10 d).toNat - 48 = d := by
  decide

theorem natDigitsAux_congr : ∀ n f1 f2, n < f1 → n < f2 →
    natDigitsAux f1 n = natDigitsAux f2 n := by
  intro n
  induction n using Nat.strong_induction_on with
  | _ n ih =>
      intro f1 f2 h1 h2
      match f1, f2 with
      | g1 + 1, g2 + 1 =>
          show natDigitsAux (g1 + 1) n = natDigitsAux (g2 + 1) n
          by_cases h10 : n < 10
          · simp [natDigitsAux, h10]
          · have hdiv : n / 10 < n := Nat.div_lt_self (by omega) (by omega)
            simp only [natDigitsAux, h10, if_false]
            rw [ih (n / 10) hdiv g1 g2 (by omega) (by omega)]

theorem natDigits_eq (n : Nat) :
    natDigits n =
      if n < 10 then [digitChar10 n]
      else natDigits (n / 10) ++ [digitChar10 (n % 10)] := by
  by_cases h10 : n < 10
  · simp [natDigits, natDigitsAux, h10]
  · have hdiv : n / 10 < n := Nat.div_lt_self (by omega) (by omega)
    have hstep : natDigitsAux (n + 1) n = natDigitsAux n (n / 10) ++ [digitChar10 (n % 10)] := by
      simp [natDigitsAux, h10]
    have hcg : natDigitsAux n (n / 10) = natDigitsAux (n / 10 + 1) (n / 10) :=
      natDigitsAux_congr (n / 10) n (n / 10 + 1) (by omega) (by omega)
    show natDigitsAux (n + 1) n = _
    rw [hstep, hcg, if_neg h10]
    rfl

theorem natDigits_all_digits : ∀ n, ∀ c ∈ natDigits n,
    48 ≤ c.toNat ∧ c.toNat ≤ 57 := by
  intro n
  induction n using Nat.strong_induction_on with
  | _ n ih =>
      intro c hc
      rw [natDigits_eq] at hc
      by_cases h10 : n < 10
      · simp [h10] at hc
        subst hc
        exact ⟨(digitChar10_spec n h10).1, (digitChar10_spec n h10).2.1⟩
      · simp [h10] at hc
        rcases hc with hc | hc
        · exact ih (n / 10) (Nat.div_lt_self (by omega) (by omega)) c hc
        · subst hc
          have hm : n % 10 < 10 := Nat.mod_lt _ (by omega)
          exact ⟨(digitChar10_spec _ hm).1, (digitChar10_spec _ hm).2.1⟩

theorem natDigits_ne_nil (n : Nat) : natDigits n ≠ [] := by
  rw [natDigits_eq]
  by_cases h10 : n < 10 <;> simp [h10]

theorem natDigits_foldl : ∀ n acc,
    (natDigits n).foldl (fun a c => a * 10 + (c.toNat - 48)) acc =
      acc * 10 ^ (natDigits n).length + n := by
  intro n
  induction n using Nat.strong_induction_on with
  | _ n ih =>
      intro acc
      rw [natDigits_eq]
      by_cases h10 : n < 10
      · simp [h10, List.foldl, (digitChar10_spec n h10).2.2]
      · have hdiv : n / 10 < n := Nat.div_lt_self (by omega) (by omega)
        have hm : n % 10 < 10 := Nat.mod_lt _ (by omega)
        simp only [h10, if_false, List.foldl_append, List.foldl_cons, List.foldl_nil,
          List.length_append, List.length_cons, List.length_nil]
        rw [ih (n / 10) hdiv acc, (digitChar10_spec _ hm).2.2]
        have hp : 10 ^ ((natDigits (n / 10)).length + (0 + 1)) =
            10 ^ (natDigits (n / 10)).length * 10 := by
          simp [pow_succ]
        rw [hp]
        have := Nat.div_add_mod n 10
        ring_nf
        omega

theorem parseNatAux_digitRun : ∀ (ds : List Char) (acc : Nat) (rest : List Char),
    (∀ c ∈ ds, 48 ≤ c.toNat ∧ c.toNat ≤ 57) →
    (∀ c, rest.head? = some c → ¬(48 ≤ c.toNat ∧ c.toNat ≤ 57)) →
    parseNatAux acc (ds ++ rest) =
      (ds.foldl (fun a c => a * 10 + (c.toNat - 48)) acc, rest) := by
  intro ds
  induction ds with
  | nil =>
      intro acc rest _ hrest
      cases rest with
      | nil => rfl
      | cons r rr =>
          have hr := hrest r rfl
          simp [parseNatAux, hr]
  | cons d ds ih =>
      intro acc rest hds hrest
      have hd := hds d (by simp)
      simp only [List.cons_append, parseNatAux, hd, and_self, if_true, List.foldl_cons]
      exact ih _ rest (fun c hc => hds c (by simp [hc])) hrest

theorem parseNat_natDigits (n : Nat) (rest : List Char)
    (hrest : ∀ c, rest.head? = some c → ¬(48 ≤ c.toNat ∧ c.toNat ≤ 57)) :
    parseNat (natDigits n ++ rest) = some (n, rest) := by
  have hrun := parseNatAux_digitRun (natDigits n) 0 rest (natDigits_all_digits n) hrest
  rw [natDigits_foldl] at hrun
  simp only [Nat.zero_mul, Nat.zero_add] at hrun
  cases hnd : natDigits n with
  | nil => exact absurd hnd (natDigits_ne_nil n)
  | cons d t =>
      have hd := natDigits_all_digits n d (by rw [hnd]; exact List.mem_cons_self d t)
      rw [hnd] at hrun
      simp only [List.cons_append, parseNat, hd, and_self, if_true]
      exact congrArg some hrun

theorem parseStringBody_cons_lit {c : Char} (h1 : c ≠ '"') (h2 : c ≠ '\\') (l : List Char) :
    parseStringBody (c :: l) = consChar c (parseStringBody l) := by
  simp [parseStringBody, h1, h2]

theorem uEscape_append (n : Nat) (l : List Char) :
    uEscape n ++ l =
      '\\' :: 'u' :: hexDigitChar (n / 4096 % 16) :: hexDigitChar (n / 256 % 16) ::
        hexDigitChar (n / 16 % 16) :: hexDigitChar (n % 16) :: l := rfl

theorem parseStringBody_backslash (l : List Char) :
    parseStringBody ('\\' :: l) = parseEscape l := by
  simp [parseStringBody]

theorem parseEscape_u (l : List Char) : parseEscape ('u' :: l) = parseU l := by
  simp [parseEscape]

theorem parseStringBody_uEscape (n : Nat) (h16 : n < 65536)
    (hval : n < 55296 ∨ 57344 ≤ n) (l : List Char) :
    parseStringBody (uEscape n ++ l) = consChar (Char.ofNat n) (parseStringBody l) := by
  rw [uEscape_append, parseStringBody_backslash, parseEscape_u]
  have hs1 : ¬(55296 ≤ n ∧ n < 56320) := by omega
  have hs2 : ¬(56320 ≤ n ∧ n < 57344) := by omega
  simp only [parseU]
  rw [hex4_uEscape n h16]
  simp [hs1, hs2]

theorem parseStringBody_surrogates (hi lo n : Nat)
    (hhi : 55296 ≤ hi ∧ hi < 56320) (hlo : 56320 ≤ lo ∧ lo < 57344)
    (hn : 65536 + (hi - 55296) * 1024 + (lo - 56320) = n) (l : List Char) :
    parseStringBody (uEscape hi ++ (uEscape lo ++ l)) =
      consChar (Char.ofNat n) (parseStringBody l) := by
  rw [uEscape_append, uEscape_append, parseStringBody_backslash, parseEscape_u]
  simp only [parseU]
  rw [hex4_uEscape hi (by omega)]
  simp only [hhi, and_self, if_true, parseLowSurrogate, reduceIte]
  rw [hex4_uEscape lo (by omega)]
  simp only [hlo, and_self, if_true]
  rw [hn]

theorem parseStringBody_escapeChar (c : Char) (l : List Char) :
    parseStringBody (escapeChar c ++ l) = consChar c (parseStringBody l) := by
  by_cases h1 : c = '"'
  · subst h1; rfl
  by_cases h2 : c = '\\'
  · subst h2; rfl
  by_cases h3 : c = '\n'
  · subst h3; rfl
  by_cases h4 : c = '\t'
  · subst h4; rfl
  by_cases h5 : c = '\x0d'
  · subst h5; rfl
  by_cases h6 : c = '\x08'
  · subst h6; rfl
  by_cases h7 : c = '\x0c'
  · subst h7; rfl
  by_cases hctl : c.toNat < 32
  · have he : escapeChar c = uEscape c.toNat := by
      simp [escapeChar, h1, h2, h3, h4, h5, h6, h7, hctl]
    rw [he, parseStringBody_uEscape c.toNat (by omega) (Or.inl (by omega)) l,
      Char.ofNat_toNat]
  by_cases hpr : c.toNat < 127
  · have he : escapeChar c = [c] := by
      simp [escapeChar, h1, h2, h3, h4, h5, h6, h7, hctl, hpr]
    rw [he]
    exact parseStringBody_cons_lit h1 h2 l
  by_cases hbmp : c.toNat < 65536
  · have hval : c.toNat < 55296 ∨ 57344 ≤ c.toNat := by
      have := char_toNat_valid c
      omega
    have he : escapeChar c = uEscape c.toNat := by
      simp [escapeChar, h1, h2, h3, h4, h5, h6, h7, hctl, hpr, hbmp]
    rw [he, parseStringBody_uEscape c.toNat hbmp hval l, Char.ofNat_toNat]
  · have hv := char_toNat_valid c
    have he : escapeChar c =
        uEscape (55296 + (c.toNat - 65536) / 1024) ++
          uEscape (56320 + (c.toNat - 65536) % 1024) := by
      simp [escapeChar, h1, h2, h3, h4, h5, h6, h7, hctl, hpr, hbmp]
    rw [he, List.append_assoc,
      parseStringBody_surrogates (55296 + (c.toNat - 65536) / 1024)
        (56320 + (c.toNat - 65536) % 1024) c.toNat (by omega) (by omega) (by omega) l,
      Char.ofNat_toNat]

theorem parseStringBody_escapes (cs : List Char) (rest : List Char) :
    parseStringBody ((cs.map escapeChar).flatten ++ ('"' :: rest)) = some (cs, rest) := by
  induction cs with
  | nil => rfl
  | cons c cs ih =>
      simp only [List.map_cons, List.flatten_cons, List.append_assoc]
      rw [parseStringBody_escapeChar, ih]
      rfl

theorem jstrChars_append (s : String) (rest : List Char) :
    jstrChars s ++ rest = '"' :: ((s.data.map escapeChar).flatten ++ ('"' :: rest)) := by
  simp [jstrChars]

theorem sizeJ_pos (v : JValue) : 1 ≤ sizeJ v := by
  cases v with
  | jobj fields => simp [sizeJ]; omega
  | jstr s => simp [sizeJ]
  | jint n => simp [sizeJ]
  | jbool b => simp [sizeJ]
  | jnull => simp [sizeJ]

theorem skipWs_jdump (v : JValue) (rest : List Char) :
    skipWs (jdumpChars v ++ rest) = jdumpChars v ++ rest := by
  cases v with
  | jstr s => rfl
  | jint n =>
      show skipWs (intChars n ++ rest) = intChars n ++ rest
      by_cases hneg : n < 0
      · simp only [intChars, hneg, if_true, reduceIte, List.cons_append]
        rfl
      · simp only [intChars, hneg, if_false, reduceIte]
        cases hnd : natDigits n.toNat with
        | nil => exact absurd hnd (natDigits_ne_nil n.toNat)
        | cons d t =>
            have hd := natDigits_all_digits n.toNat d (by rw [hnd]; exact List.mem_cons_self d t)
            simp only [List.cons_append]
            exact skipWs_cons_of_not_ws (isWsChar_false_of_toNat (by omega)) _
  | jbool b => cases b <;> rfl
  | jnull => rfl
  | jobj fields => rfl

theorem skipWs_members_cons (kv : String × JValue) (fs : List (String × JValue))
    (rest : List Char) :
    skipWs (jdumpMembers (kv :: fs) ++ rest) = jdumpMembers (kv :: fs) ++ rest := by
  rcases kv with ⟨k, v⟩
  cases fs <;> rfl

theorem sizeJ_le_length_aux : ∀ n : Nat,
    (∀ v : JValue, sizeJ v ≤ n → sizeJ v ≤ (jdumpChars v).length) ∧
    (∀ fs : List (String × JValue), sizeMembers fs ≤ n →
      sizeMembers fs ≤ (jdumpMembers fs).length) := by
  intro n
  induction n with
  | zero =>
      constructor
      · intro v hs
        have := sizeJ_pos v
        omega
      · intro fs hs
        cases fs with
        | nil => simp [sizeMembers]
        | cons kv fs2 =>
            rcases kv with ⟨k, v⟩
            simp [sizeMembers] at hs
  | succ m ih =>
      obtain ⟨ihv, ihm⟩ := ih
      constructor
      · intro v hs
        cases v with
        | jstr s =>
            show sizeJ (.jstr s) ≤ (jstrChars s).length
            simp [sizeJ, jstrChars]
        | jint n2 =>
            show sizeJ (.jint n2) ≤ (intChars n2).length
            have h1 : intChars n2 ≠ [] := by
              unfold intChars
              by_cases hneg : n2 < 0 <;> simp [hneg, natDigits_ne_nil]
            have := List.length_pos.mpr h1
            simp [sizeJ]
            omega
        | jbool b => cases b <;> simp [sizeJ, jdumpChars]
        | jnull => simp [sizeJ, jdumpChars]
        | jobj fields =>
            have hm : sizeMembers fields ≤ m := by
              simp [sizeJ] at hs
              omega
            have := ihm fields hm
            show sizeJ (.jobj fields) ≤ ('{' :: (jdumpMembers fields ++ ['}'])).length
            simp [sizeJ]
            omega
      · intro fs hs
        cases fs with
        | nil => simp [sizeMembers]
        | cons kv fs2 =>
            rcases kv with ⟨k, v⟩
            have hv : sizeJ v ≤ m := by
              have := sizeJ_pos v
              simp [sizeMembers] at hs
              omega
            have h2 : sizeMembers fs2 ≤ m := by
              have := sizeJ_pos v
              simp [sizeMembers] at hs
              omega
            have hval := ihv v hv
            have hkey : 2 ≤ (jstrChars k).length := by simp [jstrChars]
            cases fs2 with
            | nil =>
                show sizeMembers [(k, v)] ≤ (jstrChars k ++ ':' :: ' ' :: jdumpChars v).length
                simp [sizeMembers, sizeJ] at *
                omega
            | cons kv2 fs3 =>
                have hrest := ihm (kv2 :: fs3) h2
                show sizeMembers ((k, v) :: kv2 :: fs3) ≤
                  (jstrChars k ++ ':' :: ' ' ::
                    (jdumpChars v ++ ',' :: ' ' :: jdumpMembers (kv2 :: fs3))).length
                simp [sizeMembers, sizeJ] at *
                omega

theorem sizeJ_le_length (v : JValue) : sizeJ v ≤ (jdumpChars v).length :=
  (sizeJ_le_length_aux (sizeJ v)).1 v le_rfl

theorem parseValue_quote (f : Nat) (Y : List Char) :
    parseValue (f + 1) ('"' :: Y) =
      (match parseStringBody Y with
       | some p => some (JValue.jstr (String.mk p.1), p.2)
       | none => none) := rfl

theorem parseValue_brace (f : Nat) (Y : List Char) :
    parseValue (f + 1) ('{' :: Y) =
      (match parseMembers f Y with
       | some p => some (JValue.jobj p.1, p.2)
       | none => none) := rfl

theorem parseValue_dash (f : Nat) (Y : List Char) :
    parseValue (f + 1) ('-' :: Y) =
      (match parseNat Y with
       | some p => some (JValue.jint (-(p.1 : Int)), p.2)
       | none => none) := rfl

theorem parseValue_other (f : Nat) (d : Char) (Y : List Char)
    (hws : isWsChar d = false) (h1 : d ≠ '"') (h2 : d ≠ '{') (h3 : d ≠ 't')
    (h4 : d ≠ 'f') (h5 : d ≠ 'n') (h6 : d ≠ '-') :
    parseValue (f + 1) (d :: Y) =
      (match parseNat (d :: Y) with
       | some p => some (JValue.jint (p.1 : Int), p.2)
       | none => none) := by
  show (match skipWs (d :: Y) with
    | [] => none
    | c :: rest =>
        if c = '"' then
          match parseStringBody rest with
          | some p => some (JValue.jstr (String.mk p.1), p.2)
          | none => none
        else if c = '{' then
          match parseMembers f rest with
          | some p => some (JValue.jobj p.1, p.2)
          | none => none
        else if c = 't' then
          match expectChars ['r', 'u', 'e'] rest with
          | some rest2 => some (.jbool true, rest2)
          | none => none
        else if c = 'f' then
          match expectChars ['a', 'l', 's', 'e'] rest with
          | some rest2 => some (.jbool false, rest2)
          | none => none
        else if c = 'n' then
          match expectChars ['u', 'l', 'l'] rest with
          | some rest2 => some (.jnull, rest2)
          | none => none
        else if c = '-' then
          match parseNat rest with
          | some p => some (.jint (-(p.1 : Int)), p.2)
          | none => none
        else
          match parseNat (c :: rest) with
          | some p => some (.jint (p.1 : Int), p.2)
          | none => none) = _
  rw [skipWs_cons_of_not_ws hws]
  simp [h1, h2, h3, h4, h5, h6]

theorem parseMembers_keyed (f : Nat) (k : String) (W rest2 : List Char)
    (hkey : parseStringBody W = some (k.data, ':' :: ' ' :: rest2)) :
    parseMembers (f + 1) ('"' :: W) =
      (match parseValue f (skipWs rest2) with
       | none => none
       | some (v, rest4) =>
           match skipWs rest4 with
           | ',' :: rest5 =>
               (match parseMembers f (skipWs rest5) with
                | some p => some ((k, v) :: p.1, p.2)
                | none => none)
           | '}' :: rest5 => some ([(k, v)], rest5)
           | _ => none) := by
  show (match parseStringBody W with
    | none => none
    | some (key, r2) =>
        match skipWs r2 with
        | ':' :: rest3 =>
            match parseValue f (skipWs rest3) with
            | none => none
            | some (v, rest4) =>
                match skipWs rest4 with
                | ',' :: rest5 =>
                    match parseMembers f (skipWs rest5) with
                    | some p => some ((String.mk key, v) :: p.1, p.2)
                    | none => none
                | '}' :: rest5 => some ([(String.mk key, v)], rest5)
                | _ => none
        | _ => none) = _
  rw [hkey]
  rfl

theorem parse_jdump : ∀ fuel : Nat,
    (∀ (v : JValue) (rest : List Char), sizeJ v ≤ fuel →
      (∀ c, rest.head? = some c → ¬(48 ≤ c.toNat ∧ c.toNat ≤ 57)) →
      parseValue fuel (jdumpChars v ++ rest) = some (v, rest)) ∧
    (∀ (fs : List (String × JValue)) (rest : List Char), sizeMembers fs < fuel →
      parseMembers fuel (jdumpMembers fs ++ ('}' :: rest)) = some (fs, rest)) := by
  intro fuel
  induction fuel with
  | zero =>
      refine ⟨?_, ?_⟩
      · intro v rest hs _
        have := sizeJ_pos v
        omega
      · intro fs rest hs
        omega
  | succ f ih =>
      obtain ⟨ihv, ihm⟩ := ih
      refine ⟨?_, ?_⟩
      · intro v rest hs hdig
        cases v with
        | jstr s =>
            show parseValue (f + 1) (jstrChars s ++ rest) = some (.jstr s, rest)
            rw [jstrChars_append, parseValue_quote, parseStringBody_escapes]
        | jint n =>
            by_cases hneg : n < 0
            · have hich : jdumpChars (.jint n) = '-' :: natDigits n.natAbs := by
                show intChars n = _
                simp [intChars, hneg]
              rw [hich, List.cons_append, parseValue_dash,
                parseNat_natDigits n.natAbs rest hdig]
              show some (JValue.jint (-((n.natAbs : Nat) : Int)), rest) =
                some (JValue.jint n, rest)
              rw [show -((n.natAbs : Nat) : Int) = n by omega]
            · have hich : jdumpChars (.jint n) = natDigits n.toNat := by
                show intChars n = _
                simp [intChars, hneg]
              rw [hich]
              cases hnd : natDigits n.toNat with
              | nil => exact absurd hnd (natDigits_ne_nil _)
              | cons d t =>
                  have hd := natDigits_all_digits n.toNat d
                    (by rw [hnd]; exact List.mem_cons_self d t)
                  have hdne : ∀ (e : Char), (e.toNat < 48 ∨ 57 < e.toNat) → d ≠ e := by
                    intro e he
                    exact char_ne_of_toNat (by omega)
                  rw [List.cons_append, parseValue_other f d (t ++ rest)
                    (isWsChar_false_of_toNat (by omega))
                    (hdne '"' (by decide)) (hdne '{' (by decide)) (hdne 't' (by decide))
                    (hdne 'f' (by decide)) (hdne 'n' (by decide)) (hdne '-' (by decide))]
                  rw [show d :: (t ++ rest) = natDigits n.toNat ++ rest by rw [hnd]; rfl,
                    parseNat_natDigits n.toNat rest hdig]
                  show some (JValue.jint ((n.toNat : Nat) : Int), rest) =
                    some (JValue.jint n, rest)
                  rw [show ((n.toNat : Nat) : Int) = n by omega]
        | jbool b => cases b <;> rfl
        | jnull => rfl
        | jobj fields =>
            have hsm : sizeMembers fields < f := by
              simp [sizeJ] at hs
              omega
            have hshape : jdumpChars (.jobj fields) ++ rest =
                '{' :: (jdumpMembers fields ++ ('}' :: rest)) := by
              show '{' :: (jdumpMembers fields ++ ['}']) ++ rest = _
              simp
            rw [hshape, parseValue_brace, ihm fields rest hsm]
      · intro fs rest hs
        cases fs with
        | nil => rfl
        | cons kv fs2 =>
            rcases kv with ⟨k, v⟩
            cases fs2 with
            | nil =>
                have hsv : sizeJ v ≤ f := by
                  simp [sizeMembers] at hs
                  omega
                have hshape : jdumpMembers [(k, v)] ++ ('}' :: rest) =
                    '"' :: ((k.data.map escapeChar).flatten ++
                      ('"' :: (':' :: ' ' :: (jdumpChars v ++ ('}' :: rest))))) := by
                  show (jstrChars k ++ ':' :: ' ' :: jdumpChars v) ++ ('}' :: rest) = _
                  simp [jstrChars]
                rw [hshape,
                  parseMembers_keyed f k _ (jdumpChars v ++ ('}' :: rest))
                    (parseStringBody_escapes k.data
                      (':' :: ' ' :: (jdumpChars v ++ ('}' :: rest)))),
                  skipWs_jdump v ('}' :: rest),
                  ihv v ('}' :: rest) hsv
                    (by intro c hc; simp at hc; subst hc; decide)]
                rfl
            | cons kv2 fs3 =>
                have hsv : sizeJ v ≤ f := by
                  simp [sizeMembers] at hs
                  omega
                have hsm2 : sizeMembers (kv2 :: fs3) < f := by
                  obtain ⟨k2, v2⟩ := kv2
                  have := sizeJ_pos v
                  simp [sizeMembers] at hs ⊢
                  omega
                have hshape : jdumpMembers ((k, v) :: kv2 :: fs3) ++ ('}' :: rest) =
                    '"' :: ((k.data.map escapeChar).flatten ++
                      ('"' :: (':' :: ' ' :: (jdumpChars v ++
                        (',' :: ' ' :: (jdumpMembers (kv2 :: fs3) ++ ('}' :: rest))))))) := by
                  show (jstrChars k ++ ':' :: ' ' ::
                      (jdumpChars v ++ ',' :: ' ' :: jdumpMembers (kv2 :: fs3))) ++
                      ('}' :: rest) = _
                  simp [jstrChars]
                rw [hshape,
                  parseMembers_keyed f k _
                    (jdumpChars v ++ (',' :: ' ' :: (jdumpMembers (kv2 :: fs3) ++ ('}' :: rest))))
                    (parseStringBody_escapes k.data
                      (':' :: ' ' :: (jdumpChars v ++
                        (',' :: ' ' :: (jdumpMembers (kv2 :: fs3) ++ ('}' :: rest)))))),
                  skipWs_jdump v (',' :: ' ' :: (jdumpMembers (kv2 :: fs3) ++ ('}' :: rest))),
                  ihv v (',' :: ' ' :: (jdumpMembers (kv2 :: fs3) ++ ('}' :: rest))) hsv
                    (by intro c hc; simp at hc; subst hc; decide)]
                show (match parseMembers f
                    (skipWs (jdumpMembers (kv2 :: fs3) ++ ('}' :: rest))) with
                  | some p => some ((k, v) :: p.1, p.2)
                  | none => none) = some ((k, v) :: kv2 :: fs3, rest)
                rw [skipWs_members_cons kv2 fs3 ('}' :: rest), ihm (kv2 :: fs3) rest hsm2]

theorem hexDigitChar_ne_nl : ∀ m : Nat, (hexDigitChar m).toNat ≠ 10 := by
  intro m
  rcases m with _|_|_|_|_|_|_|_|_|_|_|_|_|_|_|_|m <;>
    first
      | decide
      | exact (by decide : ('f' : Char).toNat ≠ 10)

theorem digitChar10_ne_nl : ∀ m : Nat, (digitChar10 m).toNat ≠ 10 := by
  intro m
  rcases m with _|_|_|_|_|_|_|_|_|m <;>
    first
      | decide
      | exact (by decide : ('9' : Char).toNat ≠ 10)

theorem mem_uEscape_ne_nl (n : Nat) : ∀ x ∈ uEscape n, x.toNat ≠ 10 := by
  intro x hx
  simp [uEscape] at hx
  rcases hx with rfl | rfl | rfl | rfl | rfl | rfl
  · decide
  · decide
  · exact hexDigitChar_ne_nl _
  · exact hexDigitChar_ne_nl _
  · exact hexDigitChar_ne_nl _
  · exact hexDigitChar_ne_nl _

theorem mem_escapeChar_ne_nl (c : Char) : ∀ x ∈ escapeChar c, x.toNat ≠ 10 := by
  intro x hx
  by_cases h1 : c = '"'
  · subst h1; simp [escapeChar] at hx; rcases hx with rfl | rfl; decide; decide
  by_cases h2 : c = '\\'
  · subst h2; simp [escapeChar] at hx; subst hx; decide
  by_cases h3 : c = '\n'
  · subst h3; simp [escapeChar] at hx; rcases hx with rfl | rfl <;> decide
  by_cases h4 : c = '\t'
  · subst h4; simp [escapeChar] at hx; rcases hx with rfl | rfl <;> decide
  by_cases h5 : c = '\x0d'
  · subst h5; simp [escapeChar] at hx; rcases hx with rfl | rfl <;> decide
  by_cases h6 : c = '\x08'
  · subst h6; simp [escapeChar] at hx; rcases hx with rfl | rfl <;> decide
  by_cases h7 : c = '\x0c'
  · subst h7; simp [escapeChar] at hx; rcases hx with rfl | rfl <;> decide
  by_cases hctl : c.toNat < 32
  · rw [show escapeChar c = uEscape c.toNat by
      simp [escapeChar, h1, h2, h3, h4, h5, h6, h7, hctl]] at hx
    exact mem_uEscape_ne_nl _ x hx
  by_cases hpr : c.toNat < 127
  · rw [show escapeChar c = [c] by
      simp [escapeChar, h1, h2, h3, h4, h5, h6, h7, hctl, hpr]] at hx
    simp at hx
    subst hx
    omega
  by_cases hbmp : c.toNat < 65536
  · rw [show escapeChar c = uEscape c.toNat by
      simp [escapeChar, h1, h2, h3, h4, h5, h6, h7, hctl, hpr, hbmp]] at hx
    exact mem_uEscape_ne_nl _ x hx
  · rw [show escapeChar c =
        uEscape (55296 + (c.toNat - 65536) / 1024) ++
          uEscape (56320 + (c.toNat - 65536) % 1024) by
      simp [escapeChar, h1, h2, h3, h4, h5, h6, h7, hctl, hpr, hbmp]] at hx
    rcases List.mem_append.mp hx with hx2 | hx2
    · exact mem_uEscape_ne_nl _ x hx2
    · exact mem_uEscape_ne_nl _ x hx2

theorem mem_jstrChars_ne_nl (s : String) : ∀ x ∈ jstrChars s, x.toNat ≠ 10 := by
  intro x hx
  have hx2 : x = '"' ∨ x ∈ (s.data.map escapeChar).flatten := by
    simp only [jstrChars, List.mem_cons, List.mem_append, List.mem_singleton] at hx
    tauto
  rcases hx2 with rfl | hx2
  · decide
  · rcases List.mem_flatten.mp hx2 with ⟨inner, hinner, hxin⟩
    rcases List.mem_map.mp hinner with ⟨c, _, rfl⟩
    exact mem_escapeChar_ne_nl c x hxin

theorem mem_intChars_ne_nl (n : Int) : ∀ x ∈ intChars n, x.toNat ≠ 10 := by
  intro x hx
  unfold intChars at hx
  have hdig : ∀ m : Nat, x ∈ natDigits m → x.toNat ≠ 10 := by
    intro m hm
    have := natDigits_all_digits m x hm
    omega
  by_cases hneg : n < 0
  · simp [hneg] at hx
    rcases hx with rfl | hx
    · decide
    · exact hdig _ hx
  · simp [hneg] at hx
    exact hdig _ hx

theorem jdump_ne_nl_aux : ∀ n : Nat,
    (∀ v : JValue, sizeJ v ≤ n → ∀ x ∈ jdumpChars v, x.toNat ≠ 10) ∧
    (∀ fs : List (String × JValue), sizeMembers fs ≤ n →
      ∀ x ∈ jdumpMembers fs, x.toNat ≠ 10) := by
  intro n
  induction n with
  | zero =>
      refine ⟨?_, ?_⟩
      · intro v hs
        have := sizeJ_pos v
        omega
      · intro fs hs x hx
        cases fs with
        | nil => simp [jdumpMembers] at hx
        | cons kv fs2 =>
            rcases kv with ⟨k, v⟩
            have := sizeJ_pos v
            simp [sizeMembers] at hs
  | succ m ih =>
      obtain ⟨ihv, ihm⟩ := ih
      refine ⟨?_, ?_⟩
      · intro v hs x hx
        cases v with
        | jstr s => exact mem_jstrChars_ne_nl s x hx
        | jint n2 => exact mem_intChars_ne_nl n2 x hx
        | jbool b => cases b <;> (simp [jdumpChars] at hx; rcases hx with rfl | rfl | rfl | rfl | rfl <;> decide)
        | jnull => simp [jdumpChars] at hx; rcases hx with rfl | rfl | rfl | rfl <;> decide
        | jobj fields =>
            have hsm : sizeMembers fields ≤ m := by
              simp [sizeJ] at hs
              omega
            simp only [jdumpChars, List.mem_cons, List.mem_append] at hx
            rcases hx with rfl | hx | hx
            · decide
            · exact ihm fields hsm x hx
            · simp at hx; subst hx; decide
      · intro fs hs x hx
        cases fs with
        | nil => simp [jdumpMembers] at hx
        | cons kv fs2 =>
            rcases kv with ⟨k, v⟩
            have hsv : sizeJ v ≤ m := by
              simp [sizeMembers] at hs
              omega
            cases fs2 with
            | nil =>
                simp only [jdumpMembers, List.mem_append, List.mem_cons] at hx
                rcases hx with hx | rfl | rfl | hx
                · exact mem_jstrChars_ne_nl k x hx
                · decide
                · decide
                · exact ihv v hsv x hx
            | cons kv2 fs3 =>
                have hsm2 : sizeMembers (kv2 :: fs3) ≤ m := by
                  obtain ⟨k2, v2⟩ := kv2
                  have := sizeJ_pos v
                  simp [sizeMembers] at hs ⊢
                  omega
                simp only [jdumpMembers, List.mem_append, List.mem_cons] at hx
                rcases hx with hx | rfl | rfl | hx | rfl | rfl | hx
                · exact mem_jstrChars_ne_nl k x hx
                · decide
                · decide
                · exact ihv v hsv x hx
                · decide
                · decide
                · exact ihm (kv2 :: fs3) hsm2 x hx

theorem jloads_jdumps (v : JValue) : jloads (jdumps v) = some v := by
  have hp := (parse_jdump ((jdumpChars v).length + 1)).1 v []
    (le_trans (sizeJ_le_length v) (by omega)) (by intro c hc; simp at hc)
  rw [List.append_nil] at hp
  show (match parseValue ((jdumpChars v).length + 1) (jdumpChars v) with
    | some (v2, rest) => if skipWs rest = [] then some v2 else none
    | none => none) = some v
  rw [hp]
  rfl

/-- C5 (amended): the JSON formatter's output round-trips: parsing the
produced text succeeds and yields exactly the dict the formatter encoded —
an object with exactly the keys `level`, `timestamp`, `message`, `context`
in that stable order, the `context` member being the image of whatever
context the shared record carries when this sink formats it (the original
kwargs mapping, in insertion order under an injective scalar encoding,
whenever no Plain sink of the same dispatch preceded it — in particular
always for a facade whose JSON sink comes first; a preceding Plain sink
has rebound the record's context to its joined string, which the JSON
output then carries instead); the produced text is a single line. -/
theorem json_render_roundtrip (strftime : String → Nat → String) (tsfmt : String)
    (r : LogRecord) :
    jloads (jsonFormat strftime tsfmt r) =
      some (JValue.jobj
        [("level", .jstr r.levelname),
         ("timestamp", .jstr (strftime tsfmt r.created)),
         ("message", .jstr r.message),
         ("context", jsonCtxValue r.context)])
  ∧ (match jloads (jsonFormat strftime tsfmt r) with
     | some (.jobj fields) => fields.map Prod.fst
     | _ => []) = ["level", "timestamp", "message", "context"]
  ∧ (∀ x ∈ (jsonFormat strftime tsfmt r).data, x ≠ '\n')
  ∧ (∀ a b : PyVal, pyToJson a = pyToJson b → a = b)
  ∧ (∀ (l : LogLevel) (msg : String) (ctx : List (String × PyVal)) (t0 td : Nat),
      emitLog strftime [{ kind := .stream, level := 10, fmt := .JSON, tsfmt := tsfmt }]
          (mkLogEntry strftime l msg ctx t0) td =
        some [[jsonFormat strftime tsfmt (dispatchRecord l msg ctx td) ++ "\n"]]
      ∧ jloads (jsonFormat strftime tsfmt (dispatchRecord l msg ctx td)) =
          some (JValue.jobj
            [("level", .jstr (getLevelName (levelMap l))),
             ("timestamp", .jstr (strftime tsfmt td)),
             ("message", .jstr msg),
             ("context", .jobj (ctx.map (fun kv => (kv.1, pyToJson kv.2))))])) := by
  have h1 : jloads (jsonFormat strftime tsfmt r) =
      some (jsonRecordValue strftime tsfmt r) :=
    jloads_jdumps (jsonRecordValue strftime tsfmt r)
  refine ⟨h1, ?_, ?_, ?_, ?_⟩
  · rw [h1]
    cases r.context <;> rfl
  · intro x hx hxe
    have hnl := (jdump_ne_nl_aux (sizeJ (jsonRecordValue strftime tsfmt r))).1
      (jsonRecordValue strftime tsfmt r) le_rfl x hx
    subst hxe
    exact hnl (by decide)
  · intro a b hab
    cases a <;> cases b <;> simp [pyToJson] at hab <;> simp [hab]
  · intro l msg ctx t0 td
    constructor
    · rw [emitLog_mk, callHandlers_single, handlerEmit_json]
    · exact jloads_jdumps (jsonRecordValue strftime tsfmt (dispatchRecord l msg ctx td))

/-- C5 counterexample: a facade with a Plain sink before its JSON sink.
The Plain formatter of the same dispatch rebinds the shared record's
context to the joined string, so the JSON sink serialises
`"context": "user=admin"` — a JSON string, not deep-equal to the original
one-entry mapping — refuting "the parsed context is deep-equal to the
original context mapping" for JSON output in general. -/
theorem json_context_corruption_cex :
    emitLog strftimeModel
        [{ kind := .stream, level := 10, fmt := .PLAIN, tsfmt := "%Y-%m-%d %H:%M:%S" },
         { kind := .stream, level := 10, fmt := .JSON, tsfmt := "%Y-%m-%d %H:%M:%S" }]
        (mkLogEntry strftimeModel .INFO "m" [("user", .vstr "admin")] 0) 1 =
      some [["[1970-01-01 00:00:01,000] [INFO] m user=admin\n"],
            [jdumps (JValue.jobj
              [("level", .jstr "INFO"),
               ("timestamp", .jstr "1970-01-01 00:00:01"),
               ("message", .jstr "m"),
               ("context", .jstr "user=admin")]) ++ "\n"]]
  ∧ jloads (jdumps (JValue.jobj
        [("level", .jstr "INFO"),
         ("timestamp", .jstr "1970-01-01 00:00:01"),
         ("message", .jstr "m"),
         ("context", .jstr "user=admin")])) =
      some (JValue.jobj
        [("level", .jstr "INFO"),
         ("timestamp", .jstr "1970-01-01 00:00:01"),
         ("message", .jstr "m"),
         ("context", .jstr "user=admin")])
  ∧ JValue.jstr "user=admin" ≠
      JValue.jobj [("user", JValue.jstr "admin")] := by
  refine ⟨by decide, jloads_jdumps _, fun h => JValue.noConfusion h⟩
